import Mathlib

/-!
Verification of the AML ("trait" markup) renderer of this repository.

Two renderer variants exist in the source:
  * `src/ide/test_aml.py`        — functions embedded here without suffix
    (`parse_attrs`, `render_aml`, `render_widget`, ...);
  * `src/ide/test_aml_scenarios.py` — functions embedded with suffix `2`
    (`render_aml2`, `render_widget2`, ...), sharing `parse_attrs` which is
    textually identical in both files.

Python strings are modelled as `List Char` (`Str`).  Python regular
expressions used by the source are transliterated as explicit scanning
functions whose search order (leftmost match, greedy / lazy pieces) follows
the analysis of each concrete pattern; character classes are modelled over
ASCII, which is the range the dialect uses.  Python `int(...)` and the
division in `render_progress` can raise, so those renderers return
`Option`; loops are fuel-indexed so that every definition is executable.
-/

/-- Python strings, addressed by character. -/
abbrev Str := List Char

/-- Coerce a Lean literal to the model's string type. -/
def str (s : String) : Str := s.data

/-- ASCII lower-casing of one character (Python `str.lower` on the ASCII
range, the only range the dialect's tags use). -/
def lowerChar (c : Char) : Char :=
  if 'A' ≤ c ∧ c ≤ 'Z' then Char.ofNat (c.toNat + 32) else c

/-- Python `str.lower`, character-wise. -/
def lowerStr (s : Str) : Str := s.map lowerChar

/-- Whitespace for Python `str.strip`/`str.rstrip` and the regex class
`\s` (ASCII part). -/
def pySpace (c : Char) : Bool :=
  c = ' ' ∨ c = '\t' ∨ c = '\n' ∨ c = '\r' ∨ c = '\x0b' ∨ c = '\x0c'

/-- Python `str.strip()`. -/
def pyStrip (s : Str) : Str :=
  ((s.dropWhile pySpace).reverse.dropWhile pySpace).reverse

/-- Python `str.rstrip()`. -/
def pyRstrip (s : Str) : Str :=
  (s.reverse.dropWhile pySpace).reverse

/-- The regex class `[\w-]` (ASCII part): word characters or a dash. -/
def isWordChar (c : Char) : Bool :=
  ('a' ≤ c ∧ c ≤ 'z') ∨ ('A' ≤ c ∧ c ≤ 'Z') ∨ ('0' ≤ c ∧ c ≤ '9') ∨ c = '_' ∨ c = '-'

/-- The regex class `[a-z]` under `re.IGNORECASE`: an ASCII letter. -/
def isAsciiLetter (c : Char) : Bool :=
  ('a' ≤ c ∧ c ≤ 'z') ∨ ('A' ≤ c ∧ c ≤ 'Z')

/-- A single or double quote (the regex class `["\']`). -/
def isQuote (c : Char) : Bool := c = '"' ∨ c = '\''

/-- `strStartsWith hay pre` is true when `pre` is a prefix of `hay`. -/
def strStartsWith : Str → Str → Bool
  | _, [] => true
  | [], _ :: _ => false
  | c :: hay, p :: pre => c = p && strStartsWith hay pre

/-- Python `str.endswith` for one string. -/
def strEndsWith (s suf : Str) : Bool := strStartsWith s.reverse suf.reverse

/-- Index of the first occurrence of `needle` in `hay` (Python `str.find`
restricted to found/not-found as `Option`). -/
def findSub (needle : Str) : Str → Option Nat
  | [] => if strStartsWith [] needle then some 0 else none
  | c :: rest =>
    if strStartsWith (c :: rest) needle then some 0
    else (findSub needle rest).map (· + 1)

/-- Python `str.find(needle, start)` on an already-prepared haystack. -/
def findFrom (needle hay : Str) (start : Nat) : Option Nat :=
  (findSub needle (hay.drop start)).map (· + start)

/-- `html.escape` with `quote=True` on one character: the five reserved
characters become their named/numeric escapes. -/
def escapeChar (c : Char) : Str :=
  if c = '&' then str "&amp;"
  else if c = '<' then str "&lt;"
  else if c = '>' then str "&gt;"
  else if c = '"' then str "&quot;"
  else if c = '\'' then str "&#x27;"
  else [c]

/-- Python `html.escape(s, quote=True)` (the `escape` imported by both
source files). -/
def escapeHtml (s : Str) : Str := s.flatMap escapeChar

/-- Decimal digits of a natural number. -/
def natDigits (n : Nat) : Str :=
  (Nat.toDigits 10 n)

/-- Python `str(i)` for an integer. -/
def intToStr (i : Int) : Str :=
  if i < 0 then '-' :: natDigits i.natAbs else natDigits i.natAbs

/-- Python `int(s)` for a string: optional surrounding whitespace, an
optional sign, then one or more digits; anything else raises `ValueError`,
modelled as `none`.  (Underscore digit grouping is not modelled.) -/
def pyInt (s : Str) : Option Int :=
  let t := pyStrip s
  let core : Option (Bool × Str) :=
    match t with
    | '-' :: rest => some (true, rest)
    | '+' :: rest => some (false, rest)
    | _ => some (false, t)
  match core with
  | some (neg, ds) =>
    if ds ≠ [] ∧ ds.all (fun c => '0' ≤ c ∧ c ≤ '9') then
      let v : Nat := ds.foldl (fun a c => a * 10 + (c.toNat - '0'.toNat)) 0
      some (if neg then -(v : Int) else (v : Int))
    else none
  | none => none

/-- Count of (possibly overlapping) occurrences of a nonempty pattern. -/
def countSub (pat : Str) : Str → Nat
  | [] => 0
  | c :: rest => (if strStartsWith (c :: rest) pat then 1 else 0) + countSub pat rest

/-- `sub` occurs contiguously inside `s`. -/
def containsStr (sub s : Str) : Prop := ∃ a b, s = a ++ sub ++ b

/-- Lookup in an association list built by Python `dict` insertion:
later bindings override earlier ones (`attrs[k] = v` in a loop). -/
def dictGet : List (Str × Str) → Str → Option Str
  | [], _ => none
  | (k, v) :: rest, key =>
    match dictGet rest key with
    | some v' => some v'
    | none => if k = key then some v else none

/-- `"k" in attrs` for a Python dict modelled as the insertion list. -/
def dictHas (l : List (Str × Str)) (key : Str) : Bool :=
  (dictGet l key).isSome

/-- Python `attrs.get(k, d)`. -/
def dictGetD (l : List (Str × Str)) (key d : Str) : Str :=
  (dictGet l key).getD d

/-! ## Attribute parser

`parse_attrs` iterates `re.finditer(r'([\w-]+)=["\']([^"\']*)["\']', s)`.
A match starts at a word character: the greedy `[\w-]+` takes the maximal
word run (backtracking cannot help, because the character after a shortened
run would still be a word character, not `=`); then `=`, then one quote of
either kind, then the maximal run free of BOTH quote characters, then a
closing quote of either kind — the regex does not require the closing
delimiter to match the opening one.  `finditer` yields leftmost,
non-overlapping matches. -/

/-- Try the attribute-pair pattern anchored at the start of `s`; on success
return the pair and the unconsumed suffix. -/
def tryAttrAt (s : Str) : Option ((Str × Str) × Str) :=
  let name := s.takeWhile isWordChar
  if name = [] then none
  else
    match s.drop name.length with
    | '=' :: q1 :: rest =>
      if isQuote q1 then
        let v := rest.takeWhile (fun c => ¬ isQuote c)
        match rest.drop v.length with
        | q2 :: rest2 => if isQuote q2 then some ((name, v), rest2) else none
        | [] => none
      else none
    | _ => none

/-- Scanning loop of `parse_attrs` (fuel-indexed; one unit of fuel per scan
step, and every step consumes at least one character, so
`s.length + 1` fuel always suffices). -/
def parseAttrsGo : Nat → Str → List (Str × Str)
  | 0, _ => []
  | _ + 1, [] => []
  | fuel + 1, c :: rest =>
    match tryAttrAt (c :: rest) with
    | some (pair, remaining) => pair :: parseAttrsGo fuel remaining
    | none => parseAttrsGo fuel rest

/-- `parse_attrs` (identical in both source files): the ordered list of
recognized `name="value"` pairs; the Python `dict` it builds is recovered by
`dictGet` (last occurrence wins). -/
def parse_attrs (s : Str) : List (Str × Str) :=
  parseAttrsGo (s.length + 1) s


/-! ## Leaf sub-grammar scanners

Each widget regex of the form `OPEN[^>]*>(.*?)CLOSE` is transliterated: a
match anchored at an occurrence of the literal `OPEN` takes the maximal
`'>'`-free run, requires `'>'`, then the lazy group captures up to the
first occurrence of `CLOSE`.  `re.findall` yields leftmost non-overlapping
matches, restarting one character later when the anchored attempt fails.
Without `re.DOTALL` the lazy `(.*?)` cannot cross a newline. -/

/-- Anchored attempt of `OPEN[^>]*>(.*?)CLOSE`; returns the captured group
and the unconsumed suffix. -/
def tryLeafAt (openLit closeLit : Str) (dotAll : Bool) (s : Str) : Option (Str × Str) :=
  if strStartsWith s openLit then
    let after := s.drop openLit.length
    let attrs := after.takeWhile (fun c => c ≠ '>')
    match after.drop attrs.length with
    | '>' :: body =>
      match findSub closeLit body with
      | some i =>
        let inner := body.take i
        if dotAll = false ∧ '\n' ∈ inner then none
        else some (inner, body.drop (i + closeLit.length))
      | none => none
    | _ => none
  else none

/-- `re.findall` loop for `tryLeafAt` (fuel-indexed; every step consumes at
least one character, so `s.length + 1` fuel suffices). -/
def findallLeafGo (openLit closeLit : Str) (dotAll : Bool) : Nat → Str → List Str
  | 0, _ => []
  | _ + 1, [] => []
  | fuel + 1, c :: rest =>
    match tryLeafAt openLit closeLit dotAll (c :: rest) with
    | some (inner, remaining) => inner :: findallLeafGo openLit closeLit dotAll fuel remaining
    | none => findallLeafGo openLit closeLit dotAll fuel rest

/-- `re.findall(r'OPEN[^>]*>(.*?)CLOSE', s, ...)`. -/
def findallLeaf (openLit closeLit : Str) (dotAll : Bool) (s : Str) : List Str :=
  findallLeafGo openLit closeLit dotAll (s.length + 1) s

/-- Anchored attempt of `OPEN\s+MID([^"]*)"[^>]*>(.*?)CLOSE` where `MID`
ends with the opening quote of the first capture (used for the todo-item
`done="..."` and terminal `output type="..."` patterns). -/
def tryAttrLeafAt (openLit midLit closeLit : Str) (s : Str) : Option ((Str × Str) × Str) :=
  if strStartsWith s openLit then
    let after := s.drop openLit.length
    let ws := after.takeWhile pySpace
    if ws = [] then none
    else
      let after2 := after.drop ws.length
      if strStartsWith after2 midLit then
        let after3 := after2.drop midLit.length
        let v := after3.takeWhile (fun c => c ≠ '"')
        match after3.drop v.length with
        | '"' :: after4 =>
          let attrs := after4.takeWhile (fun c => c ≠ '>')
          match after4.drop attrs.length with
          | '>' :: body =>
            match findSub closeLit body with
            | some i => some ((v, body.take i), body.drop (i + closeLit.length))
            | none => none
          | _ => none
        | _ => none
      else none
  else none

/-- `re.findall` loop for `tryAttrLeafAt`. -/
def findallAttrLeafGo (openLit midLit closeLit : Str) : Nat → Str → List (Str × Str)
  | 0, _ => []
  | _ + 1, [] => []
  | fuel + 1, c :: rest =>
    match tryAttrLeafAt openLit midLit closeLit (c :: rest) with
    | some (pair, remaining) => pair :: findallAttrLeafGo openLit midLit closeLit fuel remaining
    | none => findallAttrLeafGo openLit midLit closeLit fuel rest

/-- `re.findall(r'OPEN\s+MID([^"]*)"[^>]*>(.*?)CLOSE', s, re.DOTALL)`. -/
def findallAttrLeaf (openLit midLit closeLit : Str) (s : Str) : List (Str × Str) :=
  findallAttrLeafGo openLit midLit closeLit (s.length + 1) s

/-- Anchored attempt of the chart pattern
`<trait:data\s+label="([^"]*)"\s+value="([^"]*)"[^/]*/>`. -/
def tryDataAt (s : Str) : Option ((Str × Str) × Str) :=
  if strStartsWith s (str "<trait:data") then
    let a1 := s.drop (str "<trait:data").length
    let ws1 := a1.takeWhile pySpace
    if ws1 = [] then none
    else
      let a2 := a1.drop ws1.length
      if strStartsWith a2 (str "label=\"") then
        let a3 := a2.drop 7
        let l := a3.takeWhile (fun c => c ≠ '"')
        match a3.drop l.length with
        | '"' :: a4 =>
          let ws2 := a4.takeWhile pySpace
          if ws2 = [] then none
          else
            let a5 := a4.drop ws2.length
            if strStartsWith a5 (str "value=\"") then
              let a6 := a5.drop 7
              let v := a6.takeWhile (fun c => c ≠ '"')
              match a6.drop v.length with
              | '"' :: a7 =>
                let junk := a7.takeWhile (fun c => c ≠ '/')
                match a7.drop junk.length with
                | '/' :: '>' :: rest => some ((l, v), rest)
                | _ => none
              | _ => none
            else none
        | _ => none
      else none
  else none

/-- `re.findall` loop for the chart `data` pattern. -/
def findallDataGo : Nat → Str → List (Str × Str)
  | 0, _ => []
  | _ + 1, [] => []
  | fuel + 1, c :: rest =>
    match tryDataAt (c :: rest) with
    | some (pair, remaining) => pair :: findallDataGo fuel remaining
    | none => findallDataGo fuel rest

/-- `re.findall(r'<trait:data\s+label="([^"]*)"\s+value="([^"]*)"[^/]*/>', s)`. -/
def findallData (s : Str) : List (Str × Str) :=
  findallDataGo (s.length + 1) s

/-- Anchored attempt of the table header pattern
`<trait:row\s+header="true"[^>]*>(.*?)</trait:row>` (DOTALL). -/
def tryHdrRowAt (s : Str) : Option (Str × Str) :=
  if strStartsWith s (str "<trait:row") then
    let a1 := s.drop (str "<trait:row").length
    let ws := a1.takeWhile pySpace
    if ws = [] then none
    else
      let a2 := a1.drop ws.length
      if strStartsWith a2 (str "header=\"true\"") then
        let a3 := a2.drop (str "header=\"true\"").length
        let attrs := a3.takeWhile (fun c => c ≠ '>')
        match a3.drop attrs.length with
        | '>' :: body =>
          match findSub (str "</trait:row>") body with
          | some i => some (body.take i, body.drop (i + (str "</trait:row>").length))
          | none => none
        | _ => none
      else none
  else none

/-- `re.findall` loop for the table header pattern. -/
def findallHdrGo : Nat → Str → List Str
  | 0, _ => []
  | _ + 1, [] => []
  | fuel + 1, c :: rest =>
    match tryHdrRowAt (c :: rest) with
    | some (inner, remaining) => inner :: findallHdrGo fuel remaining
    | none => findallHdrGo fuel rest

/-- `re.findall(r'<trait:row\s+header="true"[^>]*>(.*?)</trait:row>', s, re.DOTALL)`. -/
def findallHdr (s : Str) : List Str :=
  findallHdrGo (s.length + 1) s

/-! ## Tag scanner

`re.search(r'<(trait:[a-z]+)([^>]*)>', text, re.IGNORECASE)`: the leftmost
position starting `<`, a case-insensitive `trait:`, at least one ASCII
letter (maximal run), a maximal `'>'`-free run, then `>`.  Group 1 is
lower-cased by the caller (`match.group(1).lower()`), so the scanner
returns it lower-cased directly. -/

/-- Case-insensitive prefix test against an already-lowercase needle. -/
def ciStartsWith : Str → Str → Bool
  | _, [] => true
  | [], _ :: _ => false
  | c :: hay, p :: pre => lowerChar c = p && ciStartsWith hay pre

/-- Anchored attempt of the opening-tag pattern; returns the lower-cased
tag name (group 1), the raw attribute text (group 2) and the match
length. -/
def tryTagAt (s : Str) : Option (Str × Str × Nat) :=
  match s with
  | '<' :: rest =>
    if ciStartsWith rest (str "trait:") then
      let after := rest.drop 6
      let name := after.takeWhile isAsciiLetter
      if name = [] then none
      else
        let afterName := after.drop name.length
        let attrs := afterName.takeWhile (fun c => c ≠ '>')
        match afterName.drop attrs.length with
        | '>' :: _ => some (str "trait:" ++ lowerStr name, attrs, 7 + name.length + attrs.length + 1)
        | _ => none
    else none
  | _ => none

/-- Leftmost-match search for the opening-tag pattern; returns the match
start (relative to the searched text), and `tryTagAt`'s data. -/
def rFindTagGo : Str → Nat → Option (Nat × Str × Str × Nat)
  | [], _ => none
  | c :: rest, i =>
    match tryTagAt (c :: rest) with
    | some (nm, a, len) => some (i, nm, a, len)
    | none => rFindTagGo rest (i + 1)

/-- `re.search(r'<(trait:[a-z]+)([^>]*)>', s, re.IGNORECASE)`. -/
def rFindTag (s : Str) : Option (Nat × Str × Str × Nat) := rFindTagGo s 0


/-! ## Misc string helpers used by the widget renderers -/

/-- Python `s.split(sep)` for a one-character separator. -/
def splitOnChar (sep : Char) : Str → List Str
  | [] => [[]]
  | c :: rest =>
    let r := splitOnChar sep rest
    if c = sep then [] :: r
    else
      match r with
      | h :: t => (c :: h) :: t
      | [] => [[c]]

/-- Python `sep.join(items)`. -/
def joinSep (sep : Str) : List Str → Str
  | [] => []
  | [x] => x
  | x :: y :: rest => x ++ sep ++ joinSep sep (y :: rest)

/-- Python `"".join(items)`. -/
def joinAll (items : List Str) : Str := items.flatMap id

/-- Python `path.split('/')[-1]`. -/
def lastComponent (s : Str) : Str := (splitOnChar '/' s).getLastD []

/-- Python `str.replace` scanning loop (leftmost, non-overlapping;
fuel-indexed, `s.length + 1` suffices; only called with nonempty `old`). -/
def pyReplaceGo (old new : Str) : Nat → Str → Str
  | 0, s => s
  | _ + 1, [] => []
  | fuel + 1, c :: rest =>
    if strStartsWith (c :: rest) old then new ++ pyReplaceGo old new fuel ((c :: rest).drop old.length)
    else c :: pyReplaceGo old new fuel rest

/-- Python `s.replace(old, new)`. -/
def pyReplace (s old new : Str) : Str := pyReplaceGo old new (s.length + 1) s

/-- Fractional decimal digits of `r / d`, up to `fuel` places, stopping on
an exact remainder. -/
def fracDigits : Nat → Nat → Nat → Str
  | 0, _, _ => []
  | _ + 1, 0, _ => []
  | fuel + 1, r, d =>
    let r10 := r * 10
    Char.ofNat ('0'.toNat + r10 / d) :: fracDigits fuel (r10 % d) d

/-- Display of an f-string interpolated Python float, modelled on exact
rationals: integral values render as `n.0`, others with up to 16 fractional
digits.  (Python prints the shortest digits that round-trip the IEEE
double; no claim in this file depends on these digits.) -/
def ratRepr (q : ℚ) : Str :=
  let sign : Str := if q < 0 then str "-" else []
  let n : Nat := q.num.natAbs
  let ip : Nat := n / q.den
  let fr : Nat := n % q.den
  if fr = 0 then sign ++ natDigits ip ++ str ".0"
  else sign ++ natDigits ip ++ str "." ++ fracDigits 16 fr q.den

/-! ## Widget renderers of `src/ide/test_aml.py`

Each f-string is transliterated with its exact literal pieces (including
the newlines and indentation of triple-quoted strings).  Values that the
source interpolates *without* `escape(...)` are spliced raw here too. -/

/-- `render_button`. -/
def render_button (_attrs : List (Str × Str)) (content : Str) : Str :=
  str "<span class=\"trait-button\">" ++ escapeHtml content ++ str "</span>"

/-- `render_code` (test_aml.py): `file`/`language` attribute values are
interpolated raw, the inner content is escaped. -/
def render_code (attrs : List (Str × Str)) (content : Str) : Str :=
  let file_attr : Str :=
    if dictHas attrs (str "file") then
      str "<span class=\"trait-code-file\">" ++ dictGetD attrs (str "file") [] ++ str "</span>"
    else []
  let lang_attr : Str :=
    if dictHas attrs (str "language") then
      str "<span class=\"trait-code-lang\">" ++ dictGetD attrs (str "language") [] ++ str "</span>"
    else []
  str "<div class=\"trait-code-block\">\n    <div class=\"trait-code-header\">" ++ file_attr ++ lang_attr ++
  str "</div>\n    <pre class=\"trait-code\">" ++ escapeHtml content ++ str "</pre>\n</div>"

/-- `render_coderef`. -/
def render_coderef (attrs : List (Str × Str)) : Str :=
  let text := dictGetD attrs (str "text") (dictGetD attrs (str "path") [])
  str "<code class=\"trait-coderef\">" ++ escapeHtml text ++ str "</code>"

/-- One line of `render_diff`. -/
def diffLine (line : Str) : Str :=
  if strStartsWith line (str "+") then
    str "<div class=\"trait-diff-line trait-diff-added\"><span class=\"trait-diff-marker\">+</span><span class=\"trait-diff-text\">" ++ escapeHtml (line.drop 1) ++ str "</span></div>"
  else if strStartsWith line (str "-") then
    str "<div class=\"trait-diff-line trait-diff-removed\"><span class=\"trait-diff-marker\">-</span><span class=\"trait-diff-text\">" ++ escapeHtml (line.drop 1) ++ str "</span></div>"
  else
    str "<div class=\"trait-diff-line\"><span class=\"trait-diff-marker\"> </span><span class=\"trait-diff-text\">" ++ escapeHtml line ++ str "</span></div>"

/-- `render_diff`. -/
def render_diff (attrs : List (Str × Str)) (content : Str) : Str :=
  let lines := splitOnChar '\n' (pyStrip content)
  let header : Str :=
    if dictHas attrs (str "file") then
      str "<div class=\"trait-diff-header\">" ++ dictGetD attrs (str "file") [] ++ str "</div>"
    else []
  str "<div class=\"trait-diff\">" ++ header ++ str "<div class=\"trait-diff-content\">" ++
  joinAll (lines.map diffLine) ++ str "</div></div>"

/-- `render_file` (test_aml.py). -/
def render_file (attrs : List (Str × Str)) : Str :=
  let name := dictGetD attrs (str "name") (lastComponent (dictGetD attrs (str "path") []))
  let line : Str :=
    match dictGet attrs (str "line") with
    | some l => ':' :: l
    | none => []
  str "<span class=\"trait-file\">/" ++ escapeHtml name ++ line ++ str "</span>"

/-- `render_list`. -/
def render_list (attrs : List (Str × Str)) (content : Str) : Str :=
  let items := findallLeaf (str "<trait:item") (str "</trait:item>") true content
  let items_html := joinAll (items.map (fun item =>
    str "<li class=\"trait-item\">" ++ escapeHtml (pyStrip item) ++ str "</li>"))
  let tag : Str := if dictGet attrs (str "ordered") = some (str "true") then str "ol" else str "ul"
  '<' :: tag ++ str " class=\"trait-list\">" ++ items_html ++ str "</" ++ tag ++ str ">"

/-- One item of `render_todo`. -/
def todoItem (done text : Str) : Str :=
  str "<li class=\"trait-todo-item " ++ (if done = str "true" then str "trait-todo-done" else []) ++
  str "\"><input type=\"checkbox\" " ++ (if done = str "true" then str "checked" else []) ++
  str " disabled> <span>" ++ escapeHtml (pyStrip text) ++ str "</span></li>"

/-- `render_todo`: the `title` attribute value is interpolated raw. -/
def render_todo (attrs : List (Str × Str)) (content : Str) : Str :=
  let items := findallAttrLeaf (str "<trait:item") (str "done=\"") (str "</trait:item>") content
  let items_html := joinAll (items.map (fun p => todoItem p.1 p.2))
  let title : Str :=
    if dictHas attrs (str "title") then
      str "<div class=\"trait-todo-header\">" ++ dictGetD attrs (str "title") (str "Tasks") ++ str "</div>"
    else []
  str "<div class=\"trait-todo\">" ++ title ++ str "<ul class=\"trait-todo-list\">" ++ items_html ++ str "</ul></div>"

/-- `render_cells` (local to `render_table`). -/
def render_cells (row_content : Str) : Str :=
  let cells := findallLeaf (str "<trait:cell") (str "</trait:cell>") true row_content
  joinAll (cells.map (fun cell => str "<td class=\"trait-cell\">" ++ escapeHtml (pyStrip cell) ++ str "</td>"))

/-- `render_table` (identical in both source files): `rows` holds the
header-marked rows' inner text, `data_rows` every row's inner text; a data
row whose inner text occurs in `rows` is dropped from the body. -/
def render_table (_attrs : List (Str × Str)) (content : Str) : Str :=
  let rows := findallHdr content
  let data_rows := findallLeaf (str "<trait:row") (str "</trait:row>") true content
  let header_html : Str :=
    match rows with
    | r0 :: _ =>
      str "<tr class=\"trait-row trait-row-header\">" ++
      pyReplace (pyReplace (render_cells r0) (str "<td") (str "<th")) (str "/td>") (str "/th>") ++
      str "</tr>"
    | [] => []
  let data_html := joinAll ((data_rows.filter (fun row => ¬ rows.contains row)).map
    (fun row => str "<tr class=\"trait-row\">" ++ render_cells row ++ str "</tr>"))
  str "<table class=\"trait-table\"><tbody>" ++ header_html ++ data_html ++ str "</tbody></table>"

/-- `render_badge`: the `variant` attribute value is interpolated raw into
the class list, the content is escaped. -/
def render_badge (attrs : List (Str × Str)) (content : Str) : Str :=
  let variant := dictGetD attrs (str "variant") (str "default")
  str "<span class=\"trait-badge trait-badge-" ++ variant ++ str "\">" ++ escapeHtml content ++ str "</span>"

/-- `render_tag`. -/
def render_tag (_attrs : List (Str × Str)) (content : Str) : Str :=
  str "<span class=\"trait-tag\">" ++ escapeHtml content ++ str "</span>"

/-- `render_progress` (test_aml.py): `int(...)` on the `value`/`max`
attribute strings raises `ValueError` on non-numeric input, and `value /
max_val` raises `ZeroDivisionError` when `max` is 0 — both modelled as
`none`.  The displayed percentage is `min(100, max(0, (value/max_val)*100))`;
Python's `min`/`max` return the int bound when it is taken, so the clamped
endpoints print as `100`/`0` and interior values as floats. -/
def render_progress (attrs : List (Str × Str)) : Option Str :=
  let valueO : Option Int :=
    match dictGet attrs (str "value") with
    | some s => pyInt s
    | none => some 0
  let maxO : Option Int :=
    match dictGet attrs (str "max") with
    | some s => pyInt s
    | none => some 100
  match valueO, maxO with
  | some value, some max_val =>
    if max_val = 0 then none
    else
      let q : ℚ := (value : ℚ) / (max_val : ℚ) * 100
      let pct : Str := if q ≥ 100 then str "100" else if q ≤ 0 then str "0" else ratRepr q
      let label := dictGetD attrs (str "label") (intToStr value ++ str "/" ++ intToStr max_val)
      some (str "<div class=\"trait-progress\">\n    <div class=\"trait-progress-label\"><span>" ++
        label ++ str "</span><span>" ++ intToStr value ++ str "/" ++ intToStr max_val ++
        str "</span></div>\n    <div class=\"trait-progress-bar\"><div class=\"trait-progress-fill\" style=\"width: " ++
        pct ++ str "%\"></div></div>\n</div>")
  | _, _ => none

/-- `render_metric` (test_aml.py): `value` and `label` attribute values are
interpolated raw (no escaping). -/
def render_metric (attrs : List (Str × Str)) : Str :=
  str "<div class=\"trait-metric\">\n    <div class=\"trait-metric-value\">" ++
  dictGetD attrs (str "value") [] ++
  str "</div>\n    <div class=\"trait-metric-label\">" ++
  dictGetD attrs (str "label") [] ++
  str "</div>\n</div>"

/-- Maximum of a list of ints with Python's `max(..., default=1)`. -/
def maxIntD1 : List Int → Int
  | [] => 1
  | x :: xs => xs.foldl max x

/-- One bar of `render_chart` given the already-parsed numeric value; the
captured `value` and `label` strings are interpolated raw. -/
def chartBar (hi : Nat) (q : ℚ) (l v : Str) : Str :=
  let h : Str := if (hi : ℚ) < q then ratRepr q else natDigits hi
  str "<div class=\"trait-chart-bar\" style=\"height: " ++ h ++
  str "%\"><div class=\"trait-chart-bar-value\">" ++ v ++
  str "</div><div class=\"trait-chart-bar-label\">" ++ l ++ str "</div></div>"

/-- `render_chart` (test_aml.py; bar height `max(10, (int(v)/max_val)*80)`):
`int(v)` on a non-numeric captured `value` raises `ValueError`, and a zero
maximum raises `ZeroDivisionError` — both modelled as `none`. -/
def render_chart (attrs : List (Str × Str)) (content : Str) : Option Str :=
  let data_points := findallData content
  match data_points.mapM (fun p => pyInt p.2) with
  | none => none
  | some vals =>
    let max_val := maxIntD1 vals
    if max_val = 0 then none
    else
      let bars_html := joinAll ((data_points.zip vals).map (fun pv =>
        chartBar 10 ((pv.2 : ℚ) / (max_val : ℚ) * 80) pv.1.1 pv.1.2))
      let title : Str :=
        if dictHas attrs (str "title") then
          str "<div class=\"trait-chart-title\">" ++ dictGetD attrs (str "title") [] ++ str "</div>"
        else []
      some (str "<div class=\"trait-chart\">" ++ title ++ str "<div class=\"trait-chart-content\">" ++
        bars_html ++ str "</div></div>")

/-- `render_terminal` (same grouping in both source files): ALL `command`
children are rendered first, then ALL `output` children; the `title`
attribute value and the output `type` capture are interpolated raw. -/
def render_terminal (attrs : List (Str × Str)) (content : Str) : Str :=
  let commands := findallLeaf (str "<trait:command") (str "</trait:command>") true content
  let outputs := findallAttrLeaf (str "<trait:output") (str "type=\"") (str "</trait:output>") content
  let cmd_html := joinAll (commands.map (fun cmd =>
    str "<div class=\"trait-command\">" ++ escapeHtml (pyStrip cmd) ++ str "</div>"))
  let out_html := joinAll (outputs.map (fun p =>
    str "<div class=\"trait-output trait-output-" ++ p.1 ++ str "\">" ++ escapeHtml (pyStrip p.2) ++ str "</div>"))
  let title := dictGetD attrs (str "title") (str "Terminal")
  str "<div class=\"trait-terminal\"><div class=\"trait-terminal-header\"><span class=\"trait-terminal-title\">" ++
  title ++ str "</span></div><div class=\"trait-terminal-content\">" ++ cmd_html ++ out_html ++ str "</div></div>"

/-- The alert icon table `icons.get(type_, 'ℹ')`. -/
def alertIcon (t : Str) : Str :=
  if t = str "info" then str "ℹ"
  else if t = str "warning" then str "⚠"
  else if t = str "error" then str "✕"
  else if t = str "success" then str "✓"
  else if t = str "tip" then str "💡"
  else str "ℹ"

/-- `render_alert` (same output in both source files). -/
def render_alert (type_ : Str) (content : Str) : Str :=
  str "<div class=\"trait-alert trait-alert-" ++ type_ ++ str "\"><span class=\"trait-alert-icon\">" ++
  alertIcon type_ ++ str "</span><span>" ++ escapeHtml (pyStrip content) ++ str "</span></div>"

/-- `render_card` assembly around the recursively rendered inner markup
(the recursion `render_aml(content)` itself is supplied by
`render_widget`); the `title` attribute value IS escaped here. -/
def render_card (attrs : List (Str × Str)) (inner : Str) : Str :=
  let title : Str :=
    if dictHas attrs (str "title") then
      str "<div class=\"trait-card-title\">" ++ escapeHtml (dictGetD attrs (str "title") []) ++ str "</div>"
    else []
  str "<div class=\"trait-card\">" ++ title ++ str "<div class=\"trait-card-content\">" ++ inner ++ str "</div></div>"

/-- `render_grid` assembly (the `cols` attribute value interpolated raw). -/
def render_grid (attrs : List (Str × Str)) (children : Str) : Str :=
  let cols := dictGetD attrs (str "cols") (str "3")
  str "<div class=\"trait-grid\" style=\"grid-template-columns: repeat(" ++ cols ++
  str ", 1fr);\">" ++ children ++ str "</div>"

/-- `render_filetree` assembly (the `root` attribute value interpolated raw). -/
def render_filetree (attrs : List (Str × Str)) (inner : Str) : Str :=
  let root := dictGetD attrs (str "root") (str "Files")
  str "<div class=\"trait-filetree\"><div class=\"trait-filetree-header\">" ++ root ++ str "</div>" ++
  inner ++ str "</div>"

/-- `render_folder` assembly (the `name` attribute value IS escaped). -/
def render_folder (attrs : List (Str × Str)) (inner : Str) : Str :=
  let name := dictGetD attrs (str "name") (str "folder")
  str "<div class=\"trait-folder\"><div class=\"trait-folder-header\">▼ " ++ escapeHtml name ++
  str "</div><div class=\"trait-folder-children\">" ++ inner ++ str "</div></div>"

/-- `render_search` (test_aml.py; the `results` attribute value is
interpolated raw, the `query` escaped). -/
def render_search (attrs : List (Str × Str)) : Str :=
  let query := dictGetD attrs (str "query") []
  let results := dictGetD attrs (str "results") []
  let res_html : Str :=
    if results ≠ [] then str "<span class=\"trait-search-results\">" ++ results ++ str "</span>" else []
  str "<div class=\"trait-search\">🔍 <span class=\"trait-search-query\">" ++ escapeHtml query ++
  str "</span>" ++ res_html ++ str "</div>"

/-- `render_breadcrumb` (its `re.findall` has no `re.DOTALL`, so an item
whose text spans a newline is not captured). -/
def render_breadcrumb (_attrs : List (Str × Str)) (content : Str) : Str :=
  let tags := findallLeaf (str "<trait:tag") (str "</trait:tag>") false content
  let items := tags.map (fun t => str "<span class=\"trait-tag\">" ++ escapeHtml t ++ str "</span>")
  let sep := str "<span class=\"trait-breadcrumb-separator\">/</span>"
  str "<div class=\"trait-breadcrumb\">" ++ joinSep sep items ++ str "</div>"

/-- `render_divider`. -/
def render_divider : Str := str "<hr class=\"trait-divider\">"

/-- `render_spacer` (the `size` attribute value interpolated raw). -/
def render_spacer (attrs : List (Str × Str)) : Str :=
  let size := dictGetD attrs (str "size") (str "12px")
  str "<div style=\"height: " ++ size ++ str "\"></div>"

/-- `render_br`. -/
def render_br : Str := str "<br>"

/-- `render_timestamp` (the `value` attribute value interpolated raw). -/
def render_timestamp (attrs : List (Str × Str)) : Str :=
  str "<span class=\"trait-timestamp\">" ++ dictGetD attrs (str "value") [] ++ str "</span>"

/-- `render_link`. -/
def render_link (_attrs : List (Str × Str)) (content : Str) : Str :=
  str "<span class=\"trait-link\">" ++ escapeHtml content ++ str "</span>"

/-! ## Document composers -/

/-- Result of a fuel-indexed rendering computation: `.fuel` means the
modelling fuel ran out before the Python computation finished (in
particular, a diverging computation is `.fuel` for EVERY fuel), `.err`
means a Python exception aborted the render, `.ok` is the returned
string. -/
inductive RRes where
  | fuel : RRes
  | err : RRes
  | ok : Str → RRes
deriving DecidableEq

/-- Prepend already-emitted fragments to the rendering of the rest. -/
def RRes.pre (frag : Str) : RRes → RRes
  | .ok s => .ok (frag ++ s)
  | .fuel => .fuel
  | .err => .err

/-- The paragraph wrapper for an untagged text run:
`<div class="trait-text-content"><p>{escape(text)}</p></div>`. -/
def textPara (text : Str) : Str :=
  str "<div class=\"trait-text-content\"><p>" ++ escapeHtml text ++ str "</p></div>"

/-- `render_widget` of `src/ide/test_aml.py`: the renderer dictionary as a
dispatch on the tag name; `recur` is the `render_aml` re-entry used by the
container widgets (supplied with the caller's fuel). -/
def render_widget (recur : Str → RRes) (tag_name : Str) (attrs : List (Str × Str)) (content : Str) : RRes :=
  if tag_name = str "trait:button" then .ok (render_button attrs content)
  else if tag_name = str "trait:code" then .ok (render_code attrs content)
  else if tag_name = str "trait:coderef" then .ok (render_coderef attrs)
  else if tag_name = str "trait:diff" then .ok (render_diff attrs content)
  else if tag_name = str "trait:file" then .ok (render_file attrs)
  else if tag_name = str "trait:list" then .ok (render_list attrs content)
  else if tag_name = str "trait:todo" then .ok (render_todo attrs content)
  else if tag_name = str "trait:table" then .ok (render_table attrs content)
  else if tag_name = str "trait:badge" then .ok (render_badge attrs content)
  else if tag_name = str "trait:tag" then .ok (render_tag attrs content)
  else if tag_name = str "trait:progress" then
    match render_progress attrs with
    | some s => .ok s
    | none => .err
  else if tag_name = str "trait:metric" then .ok (render_metric attrs)
  else if tag_name = str "trait:chart" ∨ tag_name = str "trait:barchart" then
    match render_chart attrs content with
    | some s => .ok s
    | none => .err
  else if tag_name = str "trait:terminal" then .ok (render_terminal attrs content)
  else if tag_name = str "trait:info" then .ok (render_alert (str "info") content)
  else if tag_name = str "trait:warning" then .ok (render_alert (str "warning") content)
  else if tag_name = str "trait:error" then .ok (render_alert (str "error") content)
  else if tag_name = str "trait:success" then .ok (render_alert (str "success") content)
  else if tag_name = str "trait:tip" then .ok (render_alert (str "tip") content)
  else if tag_name = str "trait:card" then
    match recur content with
    | .ok inner => .ok (render_card attrs inner)
    | e => e
  else if tag_name = str "trait:grid" then
    match recur content with
    | .ok children => .ok (render_grid attrs children)
    | e => e
  else if tag_name = str "trait:divider" then .ok render_divider
  else if tag_name = str "trait:spacer" then .ok (render_spacer attrs)
  else if tag_name = str "trait:br" then .ok render_br
  else if tag_name = str "trait:filetree" then
    match recur content with
    | .ok inner => .ok (render_filetree attrs inner)
    | e => e
  else if tag_name = str "trait:folder" then
    match recur content with
    | .ok inner => .ok (render_folder attrs inner)
    | e => e
  else if tag_name = str "trait:search" then .ok (render_search attrs)
  else if tag_name = str "trait:breadcrumb" then .ok (render_breadcrumb attrs content)
  else if tag_name = str "trait:timestamp" then .ok (render_timestamp attrs)
  else if tag_name = str "trait:link" then .ok (render_link attrs content)
  else if tag_name = str "trait:item" then .ok (escapeHtml content)
  else .ok (str "<span style=\"color: #d95555;\">Unknown: " ++ tag_name ++ str "</span>")

/-- The main loop of `render_aml` in `src/ide/test_aml.py`, one unit of
fuel per loop iteration / recursive re-entry.  The self-closing test is the
source's literally: `attrs_str.endswith('/') or content[tag_start +
len(match.group(0)) - 1] == '/'` (the second disjunct compares the final
`>` of the match and is always false).  The closing tag is located with a
plain `find` — no depth counting — and when absent the opening tag is
emitted escaped and scanning resumes after it. -/
def render_aml_go : Nat → Str → Nat → RRes
  | 0, _, _ => .fuel
  | fuel + 1, content, pos =>
    if pos < content.length then
      match rFindTag (content.drop pos) with
      | none =>
        let text := pyStrip (content.drop pos)
        if text ≠ [] then .ok (textPara text) else .ok []
      | some (mstart, tag_name, attrs_str, mlen) =>
        let tag_start := pos + mstart
        let pre : Str :=
          if tag_start > pos then
            let t := pyStrip ((content.drop pos).take (tag_start - pos))
            if t ≠ [] then textPara t else []
          else []
        let m0 := (content.drop tag_start).take mlen
        if strEndsWith attrs_str (str "/") ∨ content.get? (tag_start + mlen - 1) = some '/' then
          let attrs := parse_attrs attrs_str
          match render_widget (fun c => render_aml_go fuel c 0) tag_name attrs [] with
          | .ok w => RRes.pre (pre ++ w) (render_aml_go fuel content (tag_start + mlen))
          | e => e
        else
          let close_tag := '<' :: '/' :: (tag_name ++ [ '>' ])
          match findFrom close_tag (lowerStr content) (tag_start + mlen) with
          | none => RRes.pre (pre ++ escapeHtml m0) (render_aml_go fuel content (tag_start + mlen))
          | some close_pos =>
            let inner := (content.take close_pos).drop (tag_start + mlen)
            let attrs := parse_attrs attrs_str
            match render_widget (fun c => render_aml_go fuel c 0) tag_name attrs inner with
            | .ok w => RRes.pre (pre ++ w) (render_aml_go fuel content (close_pos + close_tag.length))
            | e => e
    else .ok []

/-- `render_aml` of `src/ide/test_aml.py` (the fuel `2*|s|+4` covers every
terminating run on the evaluated inputs; `.fuel` would be returned were it
insufficient). -/
def render_aml (s : Str) : RRes := render_aml_go (2 * s.length + 4) s 0

/-! ## `src/ide/test_aml_scenarios.py` variants

Only the widget branches that differ from `test_aml.py` get their own
definitions; the rest of `render_widget2`'s if/elif chain reuses the
identical bodies above. -/

/-- The `trait:code` branch of `render_widget2`: the header div is emitted
only when a `file` or `language` span exists; single-line f-string. -/
def render_code2 (attrs : List (Str × Str)) (content : Str) : Str :=
  let file_html : Str :=
    if dictHas attrs (str "file") then
      str "<span class=\"trait-code-file\">" ++ dictGetD attrs (str "file") [] ++ str "</span>"
    else []
  let lang_html : Str :=
    if dictHas attrs (str "language") then
      str "<span class=\"trait-code-lang\">" ++ dictGetD attrs (str "language") [] ++ str "</span>"
    else []
  let header : Str :=
    if file_html ≠ [] ∨ lang_html ≠ [] then
      str "<div class=\"trait-code-header\">" ++ file_html ++ lang_html ++ str "</div>"
    else []
  str "<div class=\"trait-code-block\">" ++ header ++ str "<pre class=\"trait-code\">" ++
  escapeHtml content ++ str "</pre></div>"

/-- The `trait:file` branch of `render_widget2` (no `line` suffix). -/
def render_file2 (attrs : List (Str × Str)) : Str :=
  let name := dictGetD attrs (str "name") (lastComponent (dictGetD attrs (str "path") []))
  str "<span class=\"trait-file\">/" ++ escapeHtml name ++ str "</span>"

/-- The `trait:progress` branch of `render_widget2` (same computation as
`render_progress`, single-line f-string). -/
def render_progress2 (attrs : List (Str × Str)) : Option Str :=
  let valueO : Option Int :=
    match dictGet attrs (str "value") with
    | some s => pyInt s
    | none => some 0
  let maxO : Option Int :=
    match dictGet attrs (str "max") with
    | some s => pyInt s
    | none => some 100
  match valueO, maxO with
  | some value, some max_val =>
    if max_val = 0 then none
    else
      let q : ℚ := (value : ℚ) / (max_val : ℚ) * 100
      let pct : Str := if q ≥ 100 then str "100" else if q ≤ 0 then str "0" else ratRepr q
      let label := dictGetD attrs (str "label") (intToStr value ++ str "/" ++ intToStr max_val)
      some (str "<div class=\"trait-progress\"><div class=\"trait-progress-label\"><span>" ++
        label ++ str "</span><span>" ++ intToStr value ++ str "/" ++ intToStr max_val ++
        str "</span></div><div class=\"trait-progress-bar\"><div class=\"trait-progress-fill\" style=\"width: " ++
        pct ++ str "%\"></div></div></div>")
  | _, _ => none

/-- The `trait:metric` branch of `render_widget2`: adds the `change`
attribute (direction from a leading `+`), all attribute values raw. -/
def render_metric2 (attrs : List (Str × Str)) : Str :=
  let change_html : Str :=
    match dictGet attrs (str "change") with
    | some ch =>
      let direction : Str := if strStartsWith ch (str "+") then str "up" else str "down"
      str "<div class=\"trait-metric-change trait-metric-change-" ++ direction ++ str "\">" ++ ch ++ str "</div>"
    | none => []
  str "<div class=\"trait-metric\"><div class=\"trait-metric-value\">" ++ dictGetD attrs (str "value") [] ++
  str "</div><div class=\"trait-metric-label\">" ++ dictGetD attrs (str "label") [] ++ str "</div>" ++
  change_html ++ str "</div>"

/-- The chart branch of `render_widget2` (bar height
`max(15, (int(v)/max_val)*90)`). -/
def render_chart2 (attrs : List (Str × Str)) (content : Str) : Option Str :=
  let data_points := findallData content
  match data_points.mapM (fun p => pyInt p.2) with
  | none => none
  | some vals =>
    let max_val := maxIntD1 vals
    if max_val = 0 then none
    else
      let bars_html := joinAll ((data_points.zip vals).map (fun pv =>
        chartBar 15 ((pv.2 : ℚ) / (max_val : ℚ) * 90) pv.1.1 pv.1.2))
      let title : Str :=
        if dictHas attrs (str "title") then
          str "<div class=\"trait-chart-title\">" ++ dictGetD attrs (str "title") [] ++ str "</div>"
        else []
      some (str "<div class=\"trait-chart\">" ++ title ++ str "<div class=\"trait-chart-content\">" ++
        bars_html ++ str "</div></div>")

/-- The `trait:search` branch of `render_widget2` (appends " results"). -/
def render_search2 (attrs : List (Str × Str)) : Str :=
  let query := dictGetD attrs (str "query") []
  let results := dictGetD attrs (str "results") []
  let res_html : Str :=
    if results ≠ [] then str "<span class=\"trait-search-results\">" ++ results ++ str " results</span>" else []
  str "<div class=\"trait-search\">🔍 <span class=\"trait-search-query\">" ++ escapeHtml query ++
  str "</span>" ++ res_html ++ str "</div>"

/-- `render_widget` of `src/ide/test_aml_scenarios.py` (the if/elif chain). -/
def render_widget2 (recur : Str → RRes) (tag_name : Str) (attrs : List (Str × Str)) (content : Str) : RRes :=
  if tag_name = str "trait:button" then .ok (render_button attrs content)
  else if tag_name = str "trait:code" then .ok (render_code2 attrs content)
  else if tag_name = str "trait:coderef" then .ok (render_coderef attrs)
  else if tag_name = str "trait:diff" then .ok (render_diff attrs content)
  else if tag_name = str "trait:file" then .ok (render_file2 attrs)
  else if tag_name = str "trait:list" then .ok (render_list attrs content)
  else if tag_name = str "trait:todo" then .ok (render_todo attrs content)
  else if tag_name = str "trait:table" then .ok (render_table attrs content)
  else if tag_name = str "trait:badge" then .ok (render_badge attrs content)
  else if tag_name = str "trait:tag" then .ok (render_tag attrs content)
  else if tag_name = str "trait:progress" then
    match render_progress2 attrs with
    | some s => .ok s
    | none => .err
  else if tag_name = str "trait:metric" then .ok (render_metric2 attrs)
  else if tag_name = str "trait:chart" ∨ tag_name = str "trait:barchart" then
    match render_chart2 attrs content with
    | some s => .ok s
    | none => .err
  else if tag_name = str "trait:terminal" then .ok (render_terminal attrs content)
  else if tag_name = str "trait:info" then .ok (render_alert (str "info") content)
  else if tag_name = str "trait:warning" then .ok (render_alert (str "warning") content)
  else if tag_name = str "trait:error" then .ok (render_alert (str "error") content)
  else if tag_name = str "trait:success" then .ok (render_alert (str "success") content)
  else if tag_name = str "trait:tip" then .ok (render_alert (str "tip") content)
  else if tag_name = str "trait:card" then
    match recur content with
    | .ok inner => .ok (render_card attrs inner)
    | e => e
  else if tag_name = str "trait:grid" then
    match recur content with
    | .ok children => .ok (render_grid attrs children)
    | e => e
  else if tag_name = str "trait:filetree" then
    match recur content with
    | .ok inner => .ok (render_filetree attrs inner)
    | e => e
  else if tag_name = str "trait:folder" then
    match recur content with
    | .ok inner => .ok (render_folder attrs inner)
    | e => e
  else if tag_name = str "trait:search" then .ok (render_search2 attrs)
  else if tag_name = str "trait:breadcrumb" then .ok (render_breadcrumb attrs content)
  else if tag_name = str "trait:timestamp" then .ok (render_timestamp attrs)
  else if tag_name = str "trait:link" then .ok (render_link attrs content)
  else if tag_name = str "trait:divider" then .ok render_divider
  else if tag_name = str "trait:spacer" then .ok (render_spacer attrs)
  else if tag_name = str "trait:br" then .ok render_br
  else .ok (str "<span style=\"color: #d95555;\">Unknown: " ++ tag_name ++ str "</span>")

/-- Outcome of the scenario renderer's inner closing-tag loop:
`found closeAbs endPos` — depth returned to 0 at absolute index `closeAbs`
(the widget is rendered and the cursor jumps to `endPos`);
`exhausted` — the `while` condition became false, so Python's `while/else`
branch runs (the opening tag is emitted escaped and the cursor advances);
`stuck` — `next_close == -1` hit the bare `break`, which SKIPS the
while/else, leaving the cursor unchanged. -/
inductive CloseRes where
  | found : Nat → Nat → CloseRes
  | exhausted : CloseRes
  | stuck : CloseRes
deriving DecidableEq

/-- The nesting-aware closing-tag search of `render_aml` in
`src/ide/test_aml_scenarios.py` (fuel-indexed; each iteration advances
`search_pos` by at least one, so `content.length + 1` fuel suffices and
`none` is unreachable from the composer's call). -/
def findClose2 (content tagName closeTag : Str) : Nat → Nat → Nat → Option CloseRes
  | 0, _, _ => none
  | fuel + 1, searchPos, depth =>
    if searchPos < content.length ∧ depth > 0 then
      let remaining := lowerStr (content.drop searchPos)
      let nextOpen := findSub ('<' :: tagName) remaining
      let nextClose := findSub closeTag remaining
      match nextClose with
      | none => some .stuck
      | some nc =>
        let openFirst : Bool :=
          match nextOpen with
          | some no => no < nc
          | none => false
        if openFirst = true then
          findClose2 content tagName closeTag fuel
            (searchPos + (nextOpen.getD 0) + tagName.length + 1) (depth + 1)
        else
          if depth - 1 = 0 then some (.found (searchPos + nc) (searchPos + nc + closeTag.length))
          else findClose2 content tagName closeTag fuel (searchPos + nc + closeTag.length) (depth - 1)
    else some .exhausted

/-- The main loop of `render_aml` in `src/ide/test_aml_scenarios.py`.  The
self-closing test is `attrs_str.rstrip().endswith('/')` or membership of
the fixed void set `trait:divider`/`trait:spacer`/`trait:br`; paired tags
use the depth-aware `findClose2`; on `.stuck` the loop re-runs with the
SAME cursor, faithfully reproducing the source's skipped while/else. -/
def render_aml2_go : Nat → Str → Nat → RRes
  | 0, _, _ => .fuel
  | fuel + 1, content, pos =>
    if pos < content.length then
      match rFindTag (content.drop pos) with
      | none =>
        let text := pyStrip (content.drop pos)
        if text ≠ [] then .ok (textPara text) else .ok []
      | some (mstart, tag_name, attrs_str, mlen) =>
        let tag_start := pos + mstart
        let pre : Str :=
          if tag_start > pos then
            let t := pyStrip ((content.drop pos).take (tag_start - pos))
            if t ≠ [] then textPara t else []
          else []
        let m0 := (content.drop tag_start).take mlen
        if strEndsWith (pyRstrip attrs_str) (str "/") ∨ tag_name = str "trait:divider" ∨
            tag_name = str "trait:spacer" ∨ tag_name = str "trait:br" then
          let attrs := parse_attrs attrs_str
          match render_widget2 (fun c => render_aml2_go fuel c 0) tag_name attrs [] with
          | .ok w => RRes.pre (pre ++ w) (render_aml2_go fuel content (tag_start + mlen))
          | e => e
        else
          let close_tag := '<' :: '/' :: (tag_name ++ [ '>' ])
          match findClose2 content tag_name close_tag (content.length + 1) (tag_start + mlen) 1 with
          | none => .fuel
          | some (.found closeAbs endPos) =>
            let inner := (content.take closeAbs).drop (tag_start + mlen)
            let attrs := parse_attrs attrs_str
            match render_widget2 (fun c => render_aml2_go fuel c 0) tag_name attrs inner with
            | .ok w => RRes.pre (pre ++ w) (render_aml2_go fuel content endPos)
            | e => e
          | some .exhausted => RRes.pre (pre ++ escapeHtml m0) (render_aml2_go fuel content (tag_start + mlen))
          | some .stuck => RRes.pre pre (render_aml2_go fuel content pos)
    else .ok []

/-- `render_aml` of `src/ide/test_aml_scenarios.py`. -/
def render_aml2 (s : Str) : RRes := render_aml2_go (2 * s.length + 4) s 0

/-! ## Definitions used only to state the claims -/

/-- `some (countSub pat s)` when the render returned `s`. -/
def okCount (pat : Str) : RRes → Option Nat
  | RRes.ok s => some (countSub pat s)
  | _ => none

/-- Both patterns occur and the first occurrence of `p` precedes the first
occurrence of `q`. -/
def beforeIn (p q s : Str) : Bool :=
  match findSub p s, findSub q s with
  | some i, some j => decide (i < j)
  | _, _ => false

/-- The claim's reading of the attribute grammar (C9), as stated: the
closing quote must MATCH the opening delimiter, and the value may not
contain a quote of its own delimiter type (the other quote kind is
allowed).  Compare with `tryAttrAt`, the transliteration of the source's
regex. -/
def tryAttrAtClaim (s : Str) : Option ((Str × Str) × Str) :=
  let name := s.takeWhile isWordChar
  if name = [] then none
  else
    match s.drop name.length with
    | '=' :: q1 :: rest =>
      if isQuote q1 then
        let v := rest.takeWhile (fun c => c ≠ q1)
        match rest.drop v.length with
        | q2 :: rest2 => if q2 = q1 then some ((name, v), rest2) else none
        | [] => none
      else none
    | _ => none

/-- Scanning loop for `tryAttrAtClaim` (same skipping discipline as
`parseAttrsGo`). -/
def claimParseAttrsGo : Nat → Str → List (Str × Str)
  | 0, _ => []
  | _ + 1, [] => []
  | fuel + 1, c :: rest =>
    match tryAttrAtClaim (c :: rest) with
    | some (pair, remaining) => pair :: claimParseAttrsGo fuel remaining
    | none => claimParseAttrsGo fuel rest

/-- The attribute parser the claim C9 describes (matching delimiters). -/
def claimParseAttrs (s : Str) : List (Str × Str) :=
  claimParseAttrsGo (s.length + 1) s

/-- Source text of a terminal `command` child. -/
def cmdSrc (c : Str) : Str := str "<trait:command>" ++ c ++ str "</trait:command>"

/-- Source text of a terminal `output` child. -/
def outSrc (t o : Str) : Str := str "<trait:output type=\"" ++ t ++ str "\">" ++ o ++ str "</trait:output>"

/-- The line fragment `render_terminal` emits for one command. -/
def cmdLine (c : Str) : Str :=
  str "<div class=\"trait-command\">" ++ escapeHtml (pyStrip c) ++ str "</div>"

/-- The line fragment `render_terminal` emits for one output. -/
def outLine (t o : Str) : Str :=
  str "<div class=\"trait-output trait-output-" ++ t ++ str "\">" ++ escapeHtml (pyStrip o) ++ str "</div>"

/-- The fixed shell `render_terminal` wraps around its body. -/
def termShell (title body : Str) : Str :=
  str "<div class=\"trait-terminal\"><div class=\"trait-terminal-header\"><span class=\"trait-terminal-title\">" ++
  title ++ str "</span></div><div class=\"trait-terminal-content\">" ++ body ++ str "</div></div>"

/-- Source text of one table cell. -/
def cellSrc (x : Str) : Str := str "<trait:cell>" ++ x ++ str "</trait:cell>"

/-- Source text of a row's inner markup from its cell texts. -/
def cellsSrc (xs : List Str) : Str := joinAll (xs.map cellSrc)

/-- Source text of a header-marked table row. -/
def rowSrcH (xs : List Str) : Str :=
  str "<trait:row header=\"true\">" ++ cellsSrc xs ++ str "</trait:row>"

/-- Source text of a plain (data) table row. -/
def rowSrcD (xs : List Str) : Str :=
  str "<trait:row>" ++ cellsSrc xs ++ str "</trait:row>"

/-- The header-cell fragment `render_table` emits after its `<td`→`<th`,
`/td>`→`/th>` replacements. -/
def thCell (x : Str) : Str :=
  str "<th class=\"trait-cell\">" ++ escapeHtml (pyStrip x) ++ str "</th>"

/-- The body-cell fragment `render_table` emits. -/
def tdCell (x : Str) : Str :=
  str "<td class=\"trait-cell\">" ++ escapeHtml (pyStrip x) ++ str "</td>"

/-- A rendered header row. -/
def thRow (xs : List Str) : Str :=
  str "<tr class=\"trait-row trait-row-header\">" ++ joinAll (xs.map thCell) ++ str "</tr>"

/-- A rendered body row. -/
def tdRow (xs : List Str) : Str :=
  str "<tr class=\"trait-row\">" ++ joinAll (xs.map tdCell) ++ str "</tr>"

/-- The fixed shell `render_table` wraps around its rows. -/
def tableShell (body : Str) : Str :=
  str "<table class=\"trait-table\"><tbody>" ++ body ++ str "</tbody></table>"

/-- Concrete terminal inner markup with an output BEFORE a command (C6). -/
def terminalCexSrc : Str :=
  str "<trait:output type=\"stdout\">A</trait:output><trait:command>ls</trait:command>"

/-- Concrete table inner markup: one header row and two data rows, the
first data row textually equal to the header row (C7). -/
def tableCexSrc : Str :=
  str "<trait:row header=\"true\"><trait:cell>A</trait:cell></trait:row><trait:row><trait:cell>A</trait:cell></trait:row><trait:row><trait:cell>B</trait:cell></trait:row>"

/-- `noStartIn n a`: no occurrence of `n` can begin inside `a`, whatever
text follows `a` — every suffix of `a` neither contains `n` as a prefix
nor is itself a (partial) prefix of `n` that a continuation could
complete. -/
def noStartIn (n : Str) : Str → Bool
  | [] => true
  | c :: rest => !(strStartsWith (c :: rest) n || strStartsWith n (c :: rest)) && noStartIn n rest

/-- Source text of a header-marked row with raw inner text `r` (C7). -/
def rowSrcHs (r : Str) : Str :=
  str "<trait:row header=\"true\">" ++ r ++ str "</trait:row>"

/-- Source text of a plain data row with raw inner text `r` (C7). -/
def rowSrcDs (r : Str) : Str :=
  str "<trait:row>" ++ r ++ str "</trait:row>"

/-- The header `<tr>` fragment `render_table` emits for header inner text
`r`: cells rendered then retagged `td`/`th` by the two replaces. -/
def hdrTr (r : Str) : Str :=
  str "<tr class=\"trait-row trait-row-header\">" ++
    pyReplace (pyReplace (render_cells r) (str "<td") (str "<th")) (str "/td>") (str "/th>") ++
    str "</tr>"

/-- The body `<tr>` fragment `render_table` emits for data inner text `r`. -/
def bodyTr (r : Str) : Str :=
  str "<tr class=\"trait-row\">" ++ render_cells r ++ str "</tr>"

/-! # Theorems -/

/-! ## Helper lemmas about the string model -/

theorem strStartsWith_append_mutual : ∀ (x y n : Str), strStartsWith (x ++ y) n = true →
    (strStartsWith x n || strStartsWith n x) = true
  | [], _, n, _ => by cases n <;> simp [strStartsWith]
  | _ :: _, _, [], _ => by simp [strStartsWith]
  | x0 :: x', y, n0 :: n', h => by
    simp only [List.cons_append, strStartsWith, Bool.and_eq_true, decide_eq_true_eq] at h
    obtain ⟨he, hrest⟩ := h
    have hrec := strStartsWith_append_mutual x' y n' hrest
    subst he
    simp only [strStartsWith, decide_eq_true_eq]
    simpa using hrec

theorem findSub_of_startsWith {n h : Str} (hs : strStartsWith h n = true) :
    findSub n h = some 0 := by
  cases h with
  | nil => simp [findSub, hs]
  | cons c rest => simp [findSub, hs]

theorem findSub_cons_of_not_startsWith {n : Str} {x : Char} {t : Str}
    (hc : strStartsWith (x :: t) n = false) :
    findSub n (x :: t) = (findSub n t).map (· + 1) := by
  rw [show findSub n (x :: t) =
        (if strStartsWith (x :: t) n = true then some 0
         else (findSub n t).map (· + 1)) from rfl]
  rw [hc]
  simp

theorem findSub_append_of_head_notMem {c : Char} {n' : Str} :
    ∀ {a : Str} (b : Str), c ∉ a →
      findSub (c :: n') (a ++ b) = (findSub (c :: n') b).map (· + a.length)
  | [], b, _ => by
    cases hb : findSub (c :: n') b <;> simp [hb]
  | x :: a', b, h => by
    have hxc : ¬ (x = c) := fun hh => h (hh ▸ List.mem_cons_self x a')
    have hmem : c ∉ a' := fun hh => h (List.mem_cons_of_mem x hh)
    have hrec := @findSub_append_of_head_notMem c n' a' b hmem
    have hcond : strStartsWith (x :: (a' ++ b)) (c :: n') = false := by
      simp [strStartsWith, hxc]
    rw [List.cons_append, findSub_cons_of_not_startsWith hcond, hrec]
    cases hb : findSub (c :: n') b
    · simp
    · simp
      omega

theorem findSub_append_of_noStartIn {n : Str} :
    ∀ {a : Str} (b : Str), noStartIn n a = true →
      findSub n (a ++ b) = (findSub n b).map (· + a.length)
  | [], b, _ => by
    cases hb : findSub n b <;> simp [hb]
  | x :: a', b, h => by
    simp only [noStartIn, Bool.and_eq_true, Bool.not_eq_true', Bool.or_eq_false_iff] at h
    have hns : strStartsWith ((x :: a') ++ b) n = false := by
      cases hv : strStartsWith ((x :: a') ++ b) n
      · rfl
      · have := strStartsWith_append_mutual (x :: a') b n hv
        rw [h.1.1, h.1.2] at this
        simp at this
    have hrec := @findSub_append_of_noStartIn n a' b h.2
    rw [List.cons_append] at hns
    rw [List.cons_append, findSub_cons_of_not_startsWith hns, hrec]
    cases hb : findSub n b
    · simp
    · simp
      omega

theorem takeWhile_append_stop {p : Char → Bool} :
    ∀ {a : Str} {b0 : Char} (b' : Str), (∀ c ∈ a, p c = true) → p b0 = false →
      (a ++ b0 :: b').takeWhile p = a
  | [], b0, b', _, hb => by simp [List.takeWhile_cons, hb]
  | x :: a', b0, b', ha, hb => by
    have hx : p x = true := ha x (List.mem_cons_self x a')
    have := @takeWhile_append_stop p a' b0 b' (fun c hc => ha c (List.mem_cons_of_mem x hc)) hb
    simp [List.takeWhile_cons, hx, this]

theorem charOfNat_toNat (n : Nat) (h : n < 55296) : (Char.ofNat n).toNat = n := by
  simp [Char.ofNat, Nat.isValidChar, h, Char.ofNatAux, Char.toNat, UInt32.toNat, BitVec.toNat_ofNat]

theorem lowerChar_ne_lt {c : Char} (h : ¬ c = '<') : ¬ lowerChar c = '<' := by
  unfold lowerChar
  split
  next hcase =>
    intro heq
    have h1 : c.toNat ≤ 90 := hcase.2
    have h2 : 65 ≤ c.toNat := hcase.1
    have h3 : (Char.ofNat (c.toNat + 32)).toNat = c.toNat + 32 := charOfNat_toNat _ (by omega)
    rw [heq] at h3
    have h4 : ('<').toNat = 60 := by decide
    omega
  next => exact h

theorem mem_lowerStr_lt {X : Str} (h : '<' ∉ X) : '<' ∉ lowerStr X := by
  intro hmem
  obtain ⟨c, hc, hlc⟩ := List.mem_map.mp hmem
  exact lowerChar_ne_lt (fun hh => h (hh ▸ hc)) hlc

/-! ## Divergence of the scenario composer on unmatched tags (C2, C5) -/

/-- C2: the claim says `render_aml` terminates with a strictly advancing
cursor on EVERY input, naming both source files.  False for
`test_aml_scenarios.py`: on `<trait:card>hello` the inner loop hits
`next_close == -1` and `break`s, skipping the `while/else` that advances
`pos`, so the outer loop re-scans the same tag forever.  Formally: for
every fuel the fuel-indexed loop returns `.fuel`, i.e. one more outer
iteration is always demanded — the computation diverges. -/
theorem render_aml2_unmatched_tag_diverges :
    ∀ fuel, render_aml2_go fuel (str "<trait:card>hello") 0 = RRes.fuel := by
  intro fuel
  induction fuel with
  | zero => rfl
  | succ f ih =>
    have h : render_aml2_go (f + 1) (str "<trait:card>hello") 0 =
        RRes.pre [] (render_aml2_go f (str "<trait:card>hello") 0) := rfl
    rw [h, ih]
    rfl

/-- C5: the claim says an unmatched opening paired tag is emitted as
escaped literal text with scanning resuming after it, naming both source
files.  `test_aml_scenarios.py` instead diverges on the spec's own example
`<trait:list>no closing tag here` (same skipped while/else as C2): for
every fuel the loop returns `.fuel`, so no output is ever produced. -/
theorem render_aml2_unmatched_list_diverges :
    ∀ fuel, render_aml2_go fuel (str "<trait:list>no closing tag here") 0 = RRes.fuel := by
  intro fuel
  induction fuel with
  | zero => rfl
  | succ f ih =>
    have h : render_aml2_go (f + 1) (str "<trait:list>no closing tag here") 0 =
        RRes.pre [] (render_aml2_go f (str "<trait:list>no closing tag here") 0) := rfl
    rw [h, ih]
    rfl

/-- Companion fact for C5 (not a claim theorem): `test_aml.py` does behave
as the claim describes on the same input — the opening tag is escaped, no
widget structure is produced, and the remainder is flushed as a
paragraph. -/
theorem render_aml_unmatched_list_escapes :
    render_aml (str "<trait:list>no closing tag here") =
      RRes.ok (str "&lt;trait:list&gt;<div class=\"trait-text-content\"><p>no closing tag here</p></div>") := by
  decide

/-! ## Exceptions on non-numeric numeric attributes (C3) -/

/-- C3: the claim (and spec §7) says a non-numeric progress `value`/`max`
or chart data `value` resolves to a documented fallback instead of an
exception.  The source calls `int(...)` directly, so `ValueError`
propagates and aborts the whole render: both pipeline runs end in `.err`
(the modelled exception), not in a fragment. -/
theorem render_nonnumeric_raises :
    render_aml (str "<trait:progress value=\"abc\"/>") = RRes.err ∧
    render_aml (str "<trait:chart><trait:data label=\"a\" value=\"abc\"/></trait:chart>") = RRes.err := by
  exact ⟨by decide, by decide⟩

/-! ## Counterexamples for C1, C4, C6, C7, C8, C9 -/

set_option maxRecDepth 40000

/-- Counterexample to C1 as stated (which covers `render_aml` in BOTH
source files): on `<trait:card><trait:card>X</trait:card></trait:card>`
the `test_aml.py` composer pairs the outer opening tag with the FIRST
`</trait:card>` (a plain `find`, no depth counter), so its output contains
exactly ONE card content wrapper — not the two nested wrappers the claim
requires — while the depth-aware `test_aml_scenarios.py` composer yields
two. -/
theorem render_aml_nested_card_single_wrapper :
    okCount (str "<div class=\"trait-card-content\">")
      (render_aml (str "<trait:card><trait:card>X</trait:card></trait:card>")) = some 1 ∧
    okCount (str "<div class=\"trait-card-content\">")
      (render_aml2 (str "<trait:card><trait:card>X</trait:card></trait:card>")) = some 2 := by
  exact ⟨by decide, by decide⟩

/-- Counterexample to C4 as stated: `render_metric` (cited by the claim)
interpolates the `value` attribute raw — the reserved `<` of the value
`<b>` appears verbatim in the fragment and its escaped form does not
appear, so the value did NOT pass through the Escaper. -/
theorem render_metric_value_not_escaped :
    render_metric [(str "value", str "<b>")] =
      str "<div class=\"trait-metric\">\n    <div class=\"trait-metric-value\"><b></div>\n    <div class=\"trait-metric-label\"></div>\n</div>" ∧
    countSub (str "<b>") (render_metric [(str "value", str "<b>")]) = 1 ∧
    countSub (str "&lt;b&gt;") (render_metric [(str "value", str "<b>")]) = 0 := by
  exact ⟨by decide, by decide, by decide⟩

/-- Counterexample to C6 as stated: in the source markup the `output`
child precedes the `command` child, but in `render_terminal`'s fragment
the command line precedes the output line — document order of mixed
children is NOT preserved; the children are regrouped by kind. -/
theorem render_terminal_regroups_children :
    beforeIn (str "<trait:output") (str "<trait:command") terminalCexSrc = true ∧
    beforeIn (str "<div class=\"trait-command\">") (str "<div class=\"trait-output")
      (render_terminal [] terminalCexSrc) = true := by
  exact ⟨by decide, by decide⟩

/-- Counterexample to C7 as stated: with one header-marked row and two
data rows where the first data row's inner content equals the header
row's, `render_table` emits only ONE body row (`row not in rows` filters
by textual equality), not the two the claim requires. -/
theorem render_table_drops_duplicate_of_header :
    countSub (str "<tr class=\"trait-row\">") (render_table [] tableCexSrc) = 1 ∧
    render_table [] tableCexSrc =
      tableShell (thRow [str "A"] ++ tdRow [str "B"]) := by
  exact ⟨by decide, by decide⟩

/-- Counterexample to C8 as stated (which covers every scanned tag
occurrence in the program): `test_aml.py` classifies a tag as self-closing
only when its RAW attribute text ends in `/` — no whitespace trimming and
no void-element set — so the void tag `<trait:divider>` is treated as
paired there, degrades to escaped literal text, while
`test_aml_scenarios.py` (whose test the claim describes) renders the
divider rule. -/
theorem render_aml_divider_not_self_closing :
    render_aml (str "<trait:divider>") = RRes.ok (str "&lt;trait:divider&gt;") ∧
    render_aml2 (str "<trait:divider>") = RRes.ok (str "<hr class=\"trait-divider\">") := by
  exact ⟨by decide, by decide⟩

/-- Counterexample to C9 as stated: on `a="it's"` the claim's grammar
(matching delimiters, value free only of its own delimiter) yields
`a ↦ it's`, but the source regex `([\w-]+)=["\']([^"\']*)["\']` stops the
value at ANY quote and accepts ANY closing quote, yielding `a ↦ it`. -/
theorem parse_attrs_mismatched_quotes :
    parse_attrs (str "a=\"it's\"") = [(str "a", str "it")] ∧
    claimParseAttrs (str "a=\"it's\"") = [(str "a", str "it's")] := by
  exact ⟨by decide, by decide⟩

theorem dropWhile_append_stop {p : Char → Bool} :
    ∀ {a : Str} {b0 : Char} (b' : Str), (∀ c ∈ a, p c = true) → p b0 = false →
      (a ++ b0 :: b').dropWhile p = b0 :: b'
  | [], b0, b', _, hb => by simp [List.dropWhile_cons, hb]
  | x :: a', b0, b', ha, hb => by
    have hx : p x = true := ha x (List.mem_cons_self x a')
    have := @dropWhile_append_stop p a' b0 b' (fun c hc => ha c (List.mem_cons_of_mem x hc)) hb
    simp [List.dropWhile_cons, hx, this]

theorem strStartsWith_slash {l : Str} :
    strStartsWith l (str "/") = true ↔ ∃ u, l = '/' :: u := by
  cases l with
  | nil =>
    constructor
    · intro h
      exact absurd h (by decide)
    · rintro ⟨u, hu⟩
      cases hu
  | cons c u =>
    constructor
    · intro h
      have hc : decide (c = '/') = true := by
        have h' : (decide (c = '/') && strStartsWith u []) = true := h
        exact (Bool.and_eq_true _ _ |>.mp h').1
      exact ⟨u, by rw [of_decide_eq_true hc]⟩
    · rintro ⟨u', hu⟩
      injection hu with h1 h2
      subst h1
      subst h2
      simp [strStartsWith, str]

theorem rstrip_ends_slash_iff (s : Str) :
    strEndsWith (pyRstrip s) (str "/") = true ↔
      ∃ a w, s = a ++ '/' :: w ∧ ∀ c ∈ w, pySpace c = true := by
  unfold strEndsWith pyRstrip
  rw [List.reverse_reverse]
  have hrev : (str "/").reverse = str "/" := rfl
  rw [hrev, strStartsWith_slash]
  constructor
  · rintro ⟨u, hu⟩
    refine ⟨u.reverse, (s.reverse.takeWhile pySpace).reverse, ?_, ?_⟩
    · have hsplit : s.reverse.takeWhile pySpace ++ s.reverse.dropWhile pySpace = s.reverse :=
        List.takeWhile_append_dropWhile pySpace s.reverse
      calc s = s.reverse.reverse := (List.reverse_reverse s).symm
        _ = (s.reverse.takeWhile pySpace ++ '/' :: u).reverse := by rw [← hu, hsplit]
        _ = u.reverse ++ '/' :: (s.reverse.takeWhile pySpace).reverse := by
            rw [List.reverse_append]
            simp
    · intro c hc
      rw [List.mem_reverse] at hc
      exact List.mem_takeWhile_imp hc
  · rintro ⟨a, w, rfl, hw⟩
    refine ⟨a.reverse, ?_⟩
    have h1 : (a ++ '/' :: w).reverse = w.reverse ++ '/' :: a.reverse := by
      rw [List.reverse_append]
      simp
    rw [h1, dropWhile_append_stop a.reverse (fun c hc => hw c (List.mem_reverse.mp hc)) (by decide)]

/-- C8 (amended): the self-closing condition actually used by the
`test_aml_scenarios.py` composer — `attrs_str.rstrip().endswith('/') or
tag_name in ('trait:divider', 'trait:spacer', 'trait:br')`, exactly as it
appears in `render_aml2_go` — is equivalent to the claim's description:
the attribute text decomposes as anything, a `/`, then only trailing
whitespace, OR the name belongs to the fixed void set (regardless of a
written slash).  In `test_aml.py` the classification differs (see the
counterexample): there it is `attrs_str.endswith('/')` on the raw text
only. -/
theorem self_closing2_characterization (attrs_str name : Str) :
    (strEndsWith (pyRstrip attrs_str) (str "/") = true ∨ name = str "trait:divider" ∨
        name = str "trait:spacer" ∨ name = str "trait:br")
      ↔ ((∃ a w, attrs_str = a ++ '/' :: w ∧ ∀ c ∈ w, pySpace c = true) ∨
        name ∈ [str "trait:divider", str "trait:spacer", str "trait:br"]) := by
  rw [rstrip_ends_slash_iff]
  simp [List.mem_cons]

/-! ## Structure of `parse_attrs` scans (C9, C10) -/

theorem tryAttrAt_not_word {c : Char} {rest : Str} (h : isWordChar c = false) :
    tryAttrAt (c :: rest) = none := by
  unfold tryAttrAt
  simp [List.takeWhile_cons, h]

theorem tryAttrAt_pair {n v rest : Str} {q1 q2 : Char}
    (hn : n ≠ []) (hw : ∀ c ∈ n, isWordChar c = true)
    (hv : ∀ c ∈ v, isQuote c = false) (h1 : isQuote q1 = true) (h2 : isQuote q2 = true) :
    tryAttrAt (n ++ '=' :: q1 :: (v ++ q2 :: rest)) = some ((n, v), rest) := by
  unfold tryAttrAt
  have htw : (n ++ '=' :: q1 :: (v ++ q2 :: rest)).takeWhile isWordChar = n :=
    takeWhile_append_stop _ hw (by decide)
  rw [htw]
  have hlen : n.length = n.length := rfl
  rw [if_neg hn]
  have hdrop : (n ++ '=' :: q1 :: (v ++ q2 :: rest)).drop n.length = '=' :: q1 :: (v ++ q2 :: rest) :=
    List.drop_left n _
  rw [hdrop]
  simp only [h1, if_true]
  have htwv : (v ++ q2 :: rest).takeWhile (fun c => ¬ isQuote c) = v := by
    refine takeWhile_append_stop _ (fun c hc => ?_) (by simp [h2])
    simp [hv c hc]
  rw [htwv]
  have hdropv : (v ++ q2 :: rest).drop v.length = q2 :: rest := List.drop_left v _
  rw [hdropv]
  simp [h2]

theorem parseAttrsGo_nil : ∀ f, parseAttrsGo f [] = [] := by
  intro f
  cases f <;> rfl

theorem parseAttrsGo_skip : ∀ {ws : Str} (f : Nat) (t : Str), (∀ c ∈ ws, isWordChar c = false) →
    parseAttrsGo (ws.length + f) (ws ++ t) = parseAttrsGo f t
  | [], f, t, _ => by simp
  | c :: ws', f, t, hws => by
    have hc : isWordChar c = false := hws c (List.mem_cons_self _ _)
    have hlen : (c :: ws').length + f = (ws'.length + f) + 1 := by
      simp [List.length_cons]
      omega
    rw [hlen, List.cons_append]
    rw [show parseAttrsGo ((ws'.length + f) + 1) (c :: (ws' ++ t)) =
        (match tryAttrAt (c :: (ws' ++ t)) with
        | some (pair, remaining) => pair :: parseAttrsGo (ws'.length + f) remaining
        | none => parseAttrsGo (ws'.length + f) (ws' ++ t)) from rfl]
    rw [tryAttrAt_not_word hc]
    exact parseAttrsGo_skip f t (fun c hc' => hws c (List.mem_cons_of_mem _ hc'))

theorem parseAttrsGo_pair {n v rest : Str} {q1 q2 : Char} (f : Nat)
    (hn : n ≠ []) (hw : ∀ c ∈ n, isWordChar c = true)
    (hv : ∀ c ∈ v, isQuote c = false) (h1 : isQuote q1 = true) (h2 : isQuote q2 = true) :
    parseAttrsGo (f + 1) (n ++ '=' :: q1 :: (v ++ q2 :: rest)) = (n, v) :: parseAttrsGo f rest := by
  obtain ⟨n0, n', rfl⟩ : ∃ n0 n', n = n0 :: n' := by
    cases n with
    | nil => exact absurd rfl hn
    | cons a b => exact ⟨a, b, rfl⟩
  rw [List.cons_append]
  rw [show parseAttrsGo (f + 1) (n0 :: (n' ++ '=' :: q1 :: (v ++ q2 :: rest))) =
      (match tryAttrAt (n0 :: (n' ++ '=' :: q1 :: (v ++ q2 :: rest))) with
      | some (pair, remaining) => pair :: parseAttrsGo f remaining
      | none => parseAttrsGo f (n' ++ '=' :: q1 :: (v ++ q2 :: rest))) from rfl]
  rw [show (n0 :: (n' ++ '=' :: q1 :: (v ++ q2 :: rest)))
      = ((n0 :: n') ++ '=' :: q1 :: (v ++ q2 :: rest)) from rfl]
  rw [tryAttrAt_pair hn hw hv h1 h2]

/-- C9 (amended): `parse_attrs` recognizes `identifier = quote value
quote` where the two delimiters are EACH either quote kind, independently
(`q1`, `q2` arbitrary quotes — they need not match), the value contains no
quote character of either kind, and anything non-word before the pair is
skipped without error; the single recognized pair is the whole mapping, so
absent attributes are absent. -/
theorem parse_attrs_recognizes_pair (ws n v : Str) (q1 q2 : Char)
    (hws : ∀ c ∈ ws, isWordChar c = false)
    (hn : n ≠ []) (hw : ∀ c ∈ n, isWordChar c = true)
    (hv : ∀ c ∈ v, isQuote c = false) (h1 : isQuote q1 = true) (h2 : isQuote q2 = true) :
    parse_attrs (ws ++ (n ++ '=' :: q1 :: (v ++ [q2]))) = [(n, v)] := by
  unfold parse_attrs
  have hlen : (ws ++ (n ++ '=' :: q1 :: (v ++ [q2]))).length + 1
      = ws.length + ((n.length + v.length + 3) + 1) := by
    simp [List.length_append]
    omega
  rw [hlen, parseAttrsGo_skip _ _ hws]
  rw [parseAttrsGo_pair _ hn hw hv h1 h2]
  rw [parseAttrsGo_nil]

/-- Witness for `parse_attrs_recognizes_pair`: junk `? ` skipped, a
double-quoted opening and single-quoted closing delimiter accepted. -/
theorem parse_attrs_recognizes_pair_witness :
    parse_attrs (str "? " ++ (str "a" ++ '=' :: '"' :: (str "x" ++ ['\'']))) = [(str "a", str "x")] :=
  parse_attrs_recognizes_pair (str "? ") (str "a") (str "x") '"' '\''
    (by decide) (by decide) (by decide) (by decide) (by decide) (by decide)

/-- C10: when the same attribute name occurs in two recognized pairs, the
Python dict built by `parse_attrs` binds the name to the value of the
LAST (rightmost) occurrence; the earlier value is silently overwritten. -/
theorem parse_attrs_last_duplicate_wins (n v1 v2 : Str) (q1 q2 q3 q4 : Char)
    (hn : n ≠ []) (hw : ∀ c ∈ n, isWordChar c = true)
    (hv1 : ∀ c ∈ v1, isQuote c = false) (hv2 : ∀ c ∈ v2, isQuote c = false)
    (h1 : isQuote q1 = true) (h2 : isQuote q2 = true)
    (h3 : isQuote q3 = true) (h4 : isQuote q4 = true) :
    dictGet (parse_attrs (n ++ '=' :: q1 :: (v1 ++ q2 :: (n ++ '=' :: q3 :: (v2 ++ [q4]))))) n
      = some v2 := by
  unfold parse_attrs
  rw [parseAttrsGo_pair _ hn hw hv1 h1 h2]
  have hlen : (n ++ '=' :: q1 :: (v1 ++ q2 :: (n ++ '=' :: q3 :: (v2 ++ [q4])))).length
      = ((n ++ '=' :: q1 :: (v1 ++ q2 :: (n ++ '=' :: q3 :: (v2 ++ [q4])))).length - 1) + 1 := by
    simp [List.length_append]
    omega
  rw [hlen, parseAttrsGo_pair _ hn hw hv2 h3 h4, parseAttrsGo_nil]
  simp [dictGet]

/-- Witness for `parse_attrs_last_duplicate_wins`: `a="1"a="2"` maps `a`
to `2`. -/
theorem parse_attrs_last_duplicate_wins_witness :
    dictGet (parse_attrs (str "a" ++ '=' :: '"' ::
      (str "1" ++ '"' :: (str "a" ++ '=' :: '"' :: (str "2" ++ ['"']))))) (str "a") = some (str "2") :=
  parse_attrs_last_duplicate_wins (str "a") (str "1") (str "2") '"' '"' '"' '"'
    (by decide) (by decide) (by decide) (by decide)
    (by decide) (by decide) (by decide) (by decide)

/-! ## Raw (unescaped) attribute flow (C4, amended) -/

theorem containsStr_left {s x : Str} (h : containsStr s x) (y : Str) : containsStr s (x ++ y) := by
  obtain ⟨a, b, rfl⟩ := h
  exact ⟨a, b ++ y, by simp⟩

theorem containsStr_right (x : Str) {s y : Str} (h : containsStr s y) : containsStr s (x ++ y) := by
  obtain ⟨a, b, rfl⟩ := h
  exact ⟨x ++ a, b, by simp⟩

theorem containsStr_append_self (x s : Str) : containsStr s (x ++ s) :=
  ⟨x, [], by simp⟩

/-- C4 (amended): the attribute values the claim lists do NOT pass through
the Escaper — they are embedded verbatim.  Shown for the two renderers the
claim cites: whatever string the `value` attribute holds occurs as a
contiguous verbatim substring of `render_metric`'s fragment, and likewise
the `file` attribute in `render_code`'s fragment — even when it contains
reserved characters (escaping would have rewritten them, cf. the
counterexample). -/
theorem attr_values_flow_raw (attrs : List (Str × Str)) (v f content : Str) :
    (dictGet attrs (str "value") = some v → containsStr v (render_metric attrs)) ∧
    (dictGet attrs (str "file") = some f → containsStr f (render_code attrs content)) := by
  constructor
  · intro h
    unfold render_metric dictGetD
    rw [h]
    simp only [Option.getD_some]
    exact containsStr_left (containsStr_left (containsStr_left
      (containsStr_append_self _ _) _) _) _
  · intro h
    have hhas : dictHas attrs (str "file") = true := by
      unfold dictHas
      rw [h]
      rfl
    unfold render_code dictGetD
    rw [h]
    simp only [hhas, if_true, Option.getD_some]
    exact containsStr_left (containsStr_left (containsStr_left (containsStr_left
      (containsStr_right _ (containsStr_left (containsStr_append_self _ _) _)) _) _) _) _

/-- Witness for `attr_values_flow_raw`: a metric `value` of `<u>` and a
code `file` of `<w>` both appear verbatim in the fragments. -/
theorem attr_values_flow_raw_witness :
    containsStr (str "<u>") (render_metric [(str "value", str "<u>")]) ∧
    containsStr (str "<w>") (render_code [(str "file", str "<w>")] []) :=
  ⟨(attr_values_flow_raw [(str "value", str "<u>")] (str "<u>") (str "<w>") []).1 (by decide),
   (attr_values_flow_raw [(str "file", str "<w>")] (str "<u>") (str "<w>") []).2 (by decide)⟩

/-! ## Depth-aware nesting in the scenario composer (C1, amended) -/

theorem go2_done (fuel : Nat) {content : Str} {pos : Nat} (h : ¬ pos < content.length) :
    render_aml2_go (fuel + 1) content pos = RRes.ok [] := by
  simp only [render_aml2_go]
  rw [if_neg h]

theorem go2_flush (fuel : Nat) {content : Str} {pos : Nat} (h : pos < content.length)
    (hfind : rFindTag (content.drop pos) = none) (htext : pyStrip (content.drop pos) ≠ []) :
    render_aml2_go (fuel + 1) content pos = RRes.ok (textPara (pyStrip (content.drop pos))) := by
  simp only [render_aml2_go]
  rw [if_pos h, hfind]
  simp [htext]

theorem go2_paired_at0 (fuel : Nat) {content : Str} {pos : Nat} {nm at_ : Str}
    {mlen closeAbs endPos : Nat}
    (h : pos < content.length)
    (hfind : rFindTag (content.drop pos) = some (0, nm, at_, mlen))
    (hsc : ¬ (strEndsWith (pyRstrip at_) (str "/") = true ∨ nm = str "trait:divider" ∨
        nm = str "trait:spacer" ∨ nm = str "trait:br"))
    (hclose : findClose2 content nm ('<' :: '/' :: (nm ++ [ '>' ])) (content.length + 1)
        (pos + mlen) 1 = some (CloseRes.found closeAbs endPos)) :
    render_aml2_go (fuel + 1) content pos =
      (match render_widget2 (fun c => render_aml2_go fuel c 0) nm (parse_attrs at_)
          ((content.take closeAbs).drop (pos + mlen)) with
       | .ok w => RRes.pre w (render_aml2_go fuel content endPos)
       | e => e) := by
  simp only [render_aml2_go]
  rw [if_pos h, hfind]
  simp only [Nat.add_zero, gt_iff_lt, lt_irrefl, if_false]
  rw [if_neg hsc]
  rw [hclose]
  simp only [List.nil_append]

theorem findClose2_step_open (fuel : Nat) {content tagName closeTag : Str} {searchPos depth : Nat}
    {no nc : Nat}
    (h : searchPos < content.length ∧ depth > 0)
    (hopen : findSub ('<' :: tagName) (lowerStr (content.drop searchPos)) = some no)
    (hclose : findSub closeTag (lowerStr (content.drop searchPos)) = some nc)
    (hlt : no < nc) :
    findClose2 content tagName closeTag (fuel + 1) searchPos depth =
      findClose2 content tagName closeTag fuel (searchPos + no + tagName.length + 1) (depth + 1) := by
  simp only [findClose2]
  rw [if_pos h, hopen, hclose]
  simp [hlt]

theorem findClose2_step_close_none (fuel : Nat) {content tagName closeTag : Str}
    {searchPos depth nc : Nat}
    (h : searchPos < content.length ∧ depth > 0)
    (hopen : findSub ('<' :: tagName) (lowerStr (content.drop searchPos)) = none)
    (hclose : findSub closeTag (lowerStr (content.drop searchPos)) = some nc)
    (hdepth : depth - 1 ≠ 0) :
    findClose2 content tagName closeTag (fuel + 1) searchPos depth =
      findClose2 content tagName closeTag fuel (searchPos + nc + closeTag.length) (depth - 1) := by
  simp only [findClose2]
  rw [if_pos h, hopen, hclose]
  simp [hdepth]

theorem findClose2_found_none (fuel : Nat) {content tagName closeTag : Str}
    {searchPos nc : Nat}
    (h : searchPos < content.length ∧ 1 > 0)
    (hopen : findSub ('<' :: tagName) (lowerStr (content.drop searchPos)) = none)
    (hclose : findSub closeTag (lowerStr (content.drop searchPos)) = some nc) :
    findClose2 content tagName closeTag (fuel + 1) searchPos 1 =
      some (CloseRes.found (searchPos + nc) (searchPos + nc + closeTag.length)) := by
  simp only [findClose2]
  rw [if_pos h, hopen, hclose]
  simp

theorem rFindTag_card (t : Str) :
    rFindTag (str "<trait:card>" ++ t) = some (0, str "trait:card", [], 12) := rfl

theorem drop12_card (t : Str) : (str "<trait:card>" ++ t).drop 12 = t := by
  rw [show (12 : Nat) = (str "<trait:card>").length from rfl]
  exact List.drop_left _ _

theorem startsWith_card_open (t : Str) :
    strStartsWith (str "<trait:card>" ++ t) (str "<trait:card") = true := rfl

theorem lowerStr_card (t : Str) :
    lowerStr (str "<trait:card>" ++ t) = str "<trait:card>" ++ lowerStr t := by
  unfold lowerStr
  rw [List.map_append]
  rfl

theorem tryTagAt_not_lt {c : Char} {rest : Str} (h : ¬ c = '<') : tryTagAt (c :: rest) = none := by
  unfold tryTagAt
  split
  next heq => injection heq with h1 _; exact absurd h1 h
  next => rfl

theorem rFindTag_none_of_no_lt {s : Str} (h : '<' ∉ s) : rFindTag s = none := by
  unfold rFindTag
  suffices hgen : ∀ (u : Str), '<' ∉ u → ∀ i, rFindTagGo u i = none from hgen s h 0
  intro u
  induction u with
  | nil => intro _ i; rfl
  | cons c rest ih =>
    intro hmem i
    have hc : ¬ c = '<' := fun hh => hmem (hh ▸ List.mem_cons_self c rest)
    rw [show rFindTagGo (c :: rest) i =
        (match tryTagAt (c :: rest) with
        | some (nm, a, len) => some (i, nm, a, len)
        | none => rFindTagGo rest (i + 1)) from rfl]
    rw [tryTagAt_not_lt hc]
    exact ih (fun hh => hmem (List.mem_cons_of_mem c hh)) (i + 1)

theorem pyStrip_ne_nil {X : Str} (h : pyStrip X ≠ []) : X ≠ [] := by
  intro hX
  rw [hX] at h
  exact h rfl

theorem lowerStr_append (a b : Str) : lowerStr (a ++ b) = lowerStr a ++ lowerStr b := by
  unfold lowerStr
  exact List.map_append _ _ _

theorem lowerStr_length (a : Str) : (lowerStr a).length = a.length := List.length_map _ _

theorem findClose2_card_single (X : Str) (h1 : '<' ∉ X) (f : Nat) :
    findClose2 (str "<trait:card>" ++ (X ++ str "</trait:card>")) (str "trait:card")
        (str "</trait:card>") (f + 1) 12 1 =
      some (CloseRes.found (X.length + 12) (X.length + 25)) := by
  have hO : (str "<trait:card>").length = 12 := rfl
  have hC : (str "</trait:card>").length = 13 := rfl
  have hlen : (str "<trait:card>" ++ (X ++ str "</trait:card>")).length = X.length + 25 := by
    simp only [List.length_append, hO, hC]
    omega
  have hcond : 12 < (str "<trait:card>" ++ (X ++ str "</trait:card>")).length ∧ 1 > 0 := by
    rw [hlen]
    exact ⟨by omega, by omega⟩
  have hXl : '<' ∉ lowerStr X := mem_lowerStr_lt h1
  have hlowerC : lowerStr (str "</trait:card>") = str "</trait:card>" := rfl
  have hdl : lowerStr ((str "<trait:card>" ++ (X ++ str "</trait:card>")).drop 12)
      = lowerStr X ++ str "</trait:card>" := by
    rw [drop12_card, lowerStr_append, hlowerC]
  have hopen : findSub ('<' :: str "trait:card")
      (lowerStr ((str "<trait:card>" ++ (X ++ str "</trait:card>")).drop 12)) = none := by
    rw [hdl]
    rw [findSub_append_of_head_notMem _ hXl]
    rw [show findSub ('<' :: str "trait:card") (str "</trait:card>") = none from by decide]
    rfl
  have hclose : findSub (str "</trait:card>")
      (lowerStr ((str "<trait:card>" ++ (X ++ str "</trait:card>")).drop 12)) = some (0 + X.length) := by
    rw [hdl]
    have h2' : findSub (str "</trait:card>") (lowerStr X ++ str "</trait:card>") =
        (findSub (str "</trait:card>") (str "</trait:card>")).map (· + (lowerStr X).length) :=
      findSub_append_of_head_notMem _ hXl
    rw [h2', show findSub (str "</trait:card>") (str "</trait:card>") = some 0 from rfl]
    simp [lowerStr_length]
  rw [findClose2_found_none f hcond hopen hclose]
  simp only [Option.some.injEq, CloseRes.found.injEq, hC]
  exact ⟨by omega, by omega⟩

theorem drop23_cards (t : Str) :
    ((str "<trait:card>" ++ (str "<trait:card>" ++ t))).drop 23 = '>' :: t := by
  rw [show (str "<trait:card>" ++ (str "<trait:card>" ++ t)) =
      (str "<trait:card>" ++ str "<trait:card>") ++ t from by simp]
  rw [show (23 : Nat) = 23 from rfl]
  rw [List.drop_append_of_le_length (by decide : (23:Nat) ≤ (str "<trait:card>" ++ str "<trait:card>").length)]
  rfl

theorem findClose2_card_nested (X : Str) (h1 : '<' ∉ X) (f : Nat) :
    findClose2 (str "<trait:card>" ++ (str "<trait:card>" ++ (X ++ (str "</trait:card>" ++ str "</trait:card>"))))
        (str "trait:card") (str "</trait:card>") (f + 3) 12 1 =
      some (CloseRes.found (X.length + 37) (X.length + 50)) := by
  have hO : (str "<trait:card>").length = 12 := rfl
  have hC : (str "</trait:card>").length = 13 := rfl
  have hT : (str "trait:card").length = 10 := rfl
  set CC := str "</trait:card>" ++ str "</trait:card>" with hCC
  set body := X ++ CC with hbody
  have hlen : (str "<trait:card>" ++ (str "<trait:card>" ++ body)).length = X.length + 50 := by
    simp only [List.length_append, hO, hbody, hCC, hC]
    omega
  have hXl : '<' ∉ lowerStr X := mem_lowerStr_lt h1
  have hlowerCC : lowerStr CC = CC := rfl
  -- iteration 1: at 12, depth 1; the inner opening tag is found first
  have hdrop1 : (str "<trait:card>" ++ (str "<trait:card>" ++ body)).drop 12
      = str "<trait:card>" ++ body := drop12_card _
  have hdl1 : lowerStr ((str "<trait:card>" ++ (str "<trait:card>" ++ body)).drop 12)
      = str "<trait:card>" ++ (lowerStr X ++ CC) := by
    rw [hdrop1, lowerStr_card, hbody, lowerStr_append, hlowerCC]
  have hopen1 : findSub ('<' :: str "trait:card")
      (lowerStr ((str "<trait:card>" ++ (str "<trait:card>" ++ body)).drop 12)) = some 0 := by
    rw [hdl1]
    exact findSub_of_startsWith rfl
  have hclose1 : findSub (str "</trait:card>")
      (lowerStr ((str "<trait:card>" ++ (str "<trait:card>" ++ body)).drop 12))
      = some (0 + X.length + 12) := by
    rw [hdl1]
    rw [findSub_append_of_noStartIn _ (by decide : noStartIn (str "</trait:card>") (str "<trait:card>") = true)]
    rw [show (str "</trait:card>") = '<' :: str "/trait:card>" from rfl]
    rw [findSub_append_of_head_notMem _ hXl]
    rw [show findSub ('<' :: str "/trait:card>") CC = some 0 from rfl]
    simp [lowerStr_length, hO]
  have hcond1 : 12 < (str "<trait:card>" ++ (str "<trait:card>" ++ body)).length ∧ 1 > 0 := by
    rw [hlen]
    exact ⟨by omega, by omega⟩
  rw [show f + 3 = (f + 2) + 1 from rfl]
  rw [findClose2_step_open (f + 2) hcond1 hopen1 hclose1 (by omega)]
  rw [show 12 + 0 + (str "trait:card").length + 1 = 23 from rfl]
  -- iteration 2: at 23, depth 2; only closing tags remain, depth falls to 1
  have hdrop2 : (str "<trait:card>" ++ (str "<trait:card>" ++ body)).drop 23 = '>' :: body :=
    drop23_cards body
  have hdl2 : lowerStr ((str "<trait:card>" ++ (str "<trait:card>" ++ body)).drop 23)
      = ('>' :: lowerStr X) ++ CC := by
    rw [hdrop2]
    rw [show lowerStr ('>' :: body) = '>' :: lowerStr body from rfl]
    rw [hbody, lowerStr_append, hlowerCC]
    rfl
  have hnm2 : '<' ∉ '>' :: lowerStr X := by
    simp [hXl]
  have hopen2 : findSub ('<' :: str "trait:card")
      (lowerStr ((str "<trait:card>" ++ (str "<trait:card>" ++ body)).drop 23)) = none := by
    rw [hdl2]
    rw [findSub_append_of_head_notMem _ hnm2]
    rw [show findSub ('<' :: str "trait:card") CC = none from by decide]
    rfl
  have hclose2 : findSub (str "</trait:card>")
      (lowerStr ((str "<trait:card>" ++ (str "<trait:card>" ++ body)).drop 23))
      = some (0 + (X.length + 1)) := by
    rw [hdl2]
    rw [show (str "</trait:card>") = '<' :: str "/trait:card>" from rfl]
    rw [findSub_append_of_head_notMem _ hnm2]
    rw [show findSub ('<' :: str "/trait:card>") CC = some 0 from rfl]
    simp [lowerStr_length]
  have hcond2 : 23 < (str "<trait:card>" ++ (str "<trait:card>" ++ body)).length ∧ 2 > 0 := by
    rw [hlen]
    exact ⟨by omega, by omega⟩
  rw [show f + 2 = (f + 1) + 1 from rfl]
  rw [findClose2_step_close_none (f + 1) hcond2 hopen2 hclose2 (by omega)]
  rw [show 23 + (0 + (X.length + 1)) + (str "</trait:card>").length = X.length + 37 from by
    rw [hC]; omega]
  rw [show (2 : Nat) - 1 = 1 from rfl]
  -- iteration 3: at X.length + 37, depth 1; the final closing tag matches
  have hdrop3 : (str "<trait:card>" ++ (str "<trait:card>" ++ body)).drop (X.length + 37)
      = str "</trait:card>" := by
    rw [show (str "<trait:card>" ++ (str "<trait:card>" ++ body))
        = (str "<trait:card>" ++ (str "<trait:card>" ++ X)) ++ CC from by simp [hbody]]
    rw [show X.length + 37 = (str "<trait:card>" ++ (str "<trait:card>" ++ X)).length + 13 from by
      simp only [List.length_append, hO]; omega]
    rw [List.drop_append]
    rw [hCC, show (13 : Nat) = (str "</trait:card>").length from rfl, List.drop_left]
  have hdl3 : lowerStr ((str "<trait:card>" ++ (str "<trait:card>" ++ body)).drop (X.length + 37))
      = str "</trait:card>" := by
    rw [hdrop3]
    rfl
  have hopen3 : findSub ('<' :: str "trait:card")
      (lowerStr ((str "<trait:card>" ++ (str "<trait:card>" ++ body)).drop (X.length + 37))) = none := by
    rw [hdl3]
    decide
  have hclose3 : findSub (str "</trait:card>")
      (lowerStr ((str "<trait:card>" ++ (str "<trait:card>" ++ body)).drop (X.length + 37))) = some 0 := by
    rw [hdl3]
    decide
  have hcond3 : X.length + 37 < (str "<trait:card>" ++ (str "<trait:card>" ++ body)).length ∧ 1 > 0 := by
    rw [hlen]
    exact ⟨by omega, by omega⟩
  rw [findClose2_found_none f hcond3 hopen3 hclose3]
  simp only [Option.some.injEq, CloseRes.found.injEq, hC]

theorem render_widget2_card (recur : Str → RRes) (attrs : List (Str × Str)) (content : Str) :
    render_widget2 recur (str "trait:card") attrs content =
      (match recur content with
       | RRes.ok inner => RRes.ok (render_card attrs inner)
       | e => e) := rfl

/-- C1 (amended): depth-aware matching holds for the `test_aml_scenarios.py`
composer.  For EVERY inner text `X` free of `<` and non-blank, rendering
`<trait:card><trait:card>X</trait:card></trait:card>` pairs the inner
opening tag with its own closing tag (the depth counter rises to 2 on the
inner opening occurrence and must fall back to 0), producing two distinct
card wrappers with the inner one nested inside the outer's content region
— the fuel 5 bounds the loop iterations and container re-entries of this
input shape.  (`test_aml.py`'s composer fails this; see the
counterexample.) -/
theorem render_aml2_nested_card_two_wrappers (X : Str) (h1 : '<' ∉ X) (h2 : pyStrip X ≠ []) :
    render_aml2_go 5 (str "<trait:card><trait:card>" ++ X ++ str "</trait:card></trait:card>") 0 =
      RRes.ok (render_card [] (render_card [] (textPara (pyStrip X)))) := by
  have hO : (str "<trait:card>").length = 12 := rfl
  have hC : (str "</trait:card>").length = 13 := rfl
  have hsc : ¬ (strEndsWith (pyRstrip []) (str "/") = true ∨ str "trait:card" = str "trait:divider" ∨
      str "trait:card" = str "trait:spacer" ∨ str "trait:card" = str "trait:br") := by decide
  -- the inner render: <trait:card> X </trait:card>
  have hlen1 : (str "<trait:card>" ++ (X ++ str "</trait:card>")).length = X.length + 25 := by
    simp only [List.length_append, hO, hC]
    omega
  have hlevel2 : render_aml2_go 3 X 0 = RRes.ok (textPara (pyStrip X)) := by
    have hX0 : 0 < X.length := by
      cases hXc : X with
      | nil => exact absurd hXc (pyStrip_ne_nil h2)
      | cons a b => simp
    rw [show (3 : Nat) = 2 + 1 from rfl]
    rw [go2_flush 2 hX0 (by rw [List.drop_zero]; exact rFindTag_none_of_no_lt h1)
      (by rw [List.drop_zero]; exact h2)]
    rw [List.drop_zero]
  have hlevel1 : render_aml2_go 4 (str "<trait:card>" ++ (X ++ str "</trait:card>")) 0 =
      RRes.ok (render_card [] (textPara (pyStrip X))) := by
    have h0' : 0 < (str "<trait:card>" ++ (X ++ str "</trait:card>")).length := by
      rw [hlen1]
      omega
    have hfind1 : rFindTag ((str "<trait:card>" ++ (X ++ str "</trait:card>")).drop 0)
        = some (0, str "trait:card", [], 12) := by
      rw [List.drop_zero]
      exact rFindTag_card _
    have hclose1 : findClose2 (str "<trait:card>" ++ (X ++ str "</trait:card>")) (str "trait:card")
        ('<' :: '/' :: (str "trait:card" ++ [ '>' ]))
        ((str "<trait:card>" ++ (X ++ str "</trait:card>")).length + 1) (0 + 12) 1
        = some (CloseRes.found (X.length + 12) (X.length + 25)) := by
      rw [show ('<' :: '/' :: (str "trait:card" ++ [ '>' ])) = str "</trait:card>" from rfl]
      rw [hlen1]
      exact findClose2_card_single X h1 (X.length + 25)
    rw [show (4 : Nat) = 3 + 1 from rfl]
    rw [go2_paired_at0 3 h0' hfind1 hsc hclose1]
    have hinner1 : ((str "<trait:card>" ++ (X ++ str "</trait:card>")).take (X.length + 12)).drop (0 + 12)
        = X := by
      rw [show (str "<trait:card>" ++ (X ++ str "</trait:card>"))
          = (str "<trait:card>" ++ X) ++ str "</trait:card>" from by simp]
      rw [show X.length + 12 = (str "<trait:card>" ++ X).length + 0 from by
        simp only [List.length_append, hO]; omega]
      rw [List.take_append]
      rw [show (str "<trait:card>" ++ X) ++ (str "</trait:card>").take 0 = str "<trait:card>" ++ X from by simp]
      exact drop12_card X
    rw [hinner1, render_widget2_card, hlevel2]
    have hdone : render_aml2_go 3 (str "<trait:card>" ++ (X ++ str "</trait:card>")) (X.length + 25)
        = RRes.ok [] := by
      rw [show (3 : Nat) = 2 + 1 from rfl]
      exact go2_done 2 (by rw [hlen1]; omega)
    rw [hdone]
    rw [show parse_attrs ([] : Str) = [] from rfl]
    simp [RRes.pre]
  -- the outer render
  rw [show str "<trait:card><trait:card>" ++ X ++ str "</trait:card></trait:card>"
      = str "<trait:card>" ++ (str "<trait:card>" ++ (X ++ (str "</trait:card>" ++ str "</trait:card>")))
      from by
    rw [show str "<trait:card><trait:card>" = str "<trait:card>" ++ str "<trait:card>" from rfl,
        show str "</trait:card></trait:card>" = str "</trait:card>" ++ str "</trait:card>" from rfl]
    simp [List.append_assoc]]
  have hlen0 : (str "<trait:card>" ++ (str "<trait:card>" ++ (X ++ (str "</trait:card>" ++ str "</trait:card>")))).length
      = X.length + 50 := by
    simp only [List.length_append, hO, hC]
    omega
  have h0 : 0 < (str "<trait:card>" ++ (str "<trait:card>" ++ (X ++ (str "</trait:card>" ++ str "</trait:card>")))).length := by
    rw [hlen0]
    omega
  have hfind0 : rFindTag ((str "<trait:card>" ++ (str "<trait:card>" ++ (X ++ (str "</trait:card>" ++ str "</trait:card>")))).drop 0)
      = some (0, str "trait:card", [], 12) := by
    rw [List.drop_zero]
    exact rFindTag_card _
  have hclose0 : findClose2 (str "<trait:card>" ++ (str "<trait:card>" ++ (X ++ (str "</trait:card>" ++ str "</trait:card>"))))
      (str "trait:card") ('<' :: '/' :: (str "trait:card" ++ [ '>' ]))
      ((str "<trait:card>" ++ (str "<trait:card>" ++ (X ++ (str "</trait:card>" ++ str "</trait:card>")))).length + 1)
      (0 + 12) 1 = some (CloseRes.found (X.length + 37) (X.length + 50)) := by
    rw [show ('<' :: '/' :: (str "trait:card" ++ [ '>' ])) = str "</trait:card>" from rfl]
    rw [hlen0]
    rw [show X.length + 50 + 1 = (X.length + 48) + 3 from by omega]
    exact findClose2_card_nested X h1 (X.length + 48)
  rw [show (5 : Nat) = 4 + 1 from rfl]
  rw [go2_paired_at0 4 h0 hfind0 hsc hclose0]
  have hinner0 : ((str "<trait:card>" ++ (str "<trait:card>" ++ (X ++ (str "</trait:card>" ++ str "</trait:card>")))).take (X.length + 37)).drop (0 + 12)
      = str "<trait:card>" ++ (X ++ str "</trait:card>") := by
    rw [show (str "<trait:card>" ++ (str "<trait:card>" ++ (X ++ (str "</trait:card>" ++ str "</trait:card>"))))
        = (str "<trait:card>" ++ (str "<trait:card>" ++ X)) ++ (str "</trait:card>" ++ str "</trait:card>")
        from by simp [List.append_assoc]]
    rw [show X.length + 37 = (str "<trait:card>" ++ (str "<trait:card>" ++ X)).length + 13 from by
      simp only [List.length_append, hO]; omega]
    rw [List.take_append]
    rw [show (str "</trait:card>" ++ str "</trait:card>").take 13 = str "</trait:card>" from by decide]
    rw [show (str "<trait:card>" ++ (str "<trait:card>" ++ X)) ++ str "</trait:card>"
        = str "<trait:card>" ++ ((str "<trait:card>" ++ X) ++ str "</trait:card>") from by
      simp [List.append_assoc]]
    rw [show (0 + 12 : Nat) = 12 from rfl]
    rw [drop12_card]
    simp [List.append_assoc]
  rw [hinner0, render_widget2_card, hlevel1]
  have hdone0 : render_aml2_go 4 (str "<trait:card>" ++ (str "<trait:card>" ++ (X ++ (str "</trait:card>" ++ str "</trait:card>"))))
      (X.length + 50) = RRes.ok [] := by
    rw [show (4 : Nat) = 3 + 1 from rfl]
    exact go2_done 3 (by rw [hlen0]; omega)
  rw [hdone0]
  rw [show parse_attrs ([] : Str) = [] from rfl]
  simp [RRes.pre]

/-- Witness for `render_aml2_nested_card_two_wrappers` at `X := "X"`. -/
theorem render_aml2_nested_card_two_wrappers_witness :
    render_aml2_go 5 (str "<trait:card><trait:card>" ++ str "X" ++ str "</trait:card></trait:card>") 0 =
      RRes.ok (render_card [] (render_card [] (textPara (pyStrip (str "X"))))) :=
  render_aml2_nested_card_two_wrappers (str "X") (by decide) (by decide)

/-! ## Terminal children are regrouped by kind (C6, amended) -/

theorem tryLeafAt_none_of_not_startsWith {o cl : Str} {dA : Bool} {s : Str}
    (h : strStartsWith s o = false) : tryLeafAt o cl dA s = none := by
  unfold tryLeafAt
  rw [h]
  simp

theorem findallLeafGo_step {o cl : Str} {dA : Bool} {c0 : Char} {rest inner remaining : Str} (f : Nat)
    (h : tryLeafAt o cl dA (c0 :: rest) = some (inner, remaining)) :
    findallLeafGo o cl dA (f + 1) (c0 :: rest) = inner :: findallLeafGo o cl dA f remaining := by
  rw [show findallLeafGo o cl dA (f + 1) (c0 :: rest) =
      (match tryLeafAt o cl dA (c0 :: rest) with
       | some (p, r) => p :: findallLeafGo o cl dA f r
       | none => findallLeafGo o cl dA f rest) from rfl, h]

theorem findallLeafGo_skip1 {o cl : Str} {dA : Bool} {c0 : Char} {rest : Str} (f : Nat)
    (h : tryLeafAt o cl dA (c0 :: rest) = none) :
    findallLeafGo o cl dA (f + 1) (c0 :: rest) = findallLeafGo o cl dA f rest := by
  rw [show findallLeafGo o cl dA (f + 1) (c0 :: rest) =
      (match tryLeafAt o cl dA (c0 :: rest) with
       | some (p, r) => p :: findallLeafGo o cl dA f r
       | none => findallLeafGo o cl dA f rest) from rfl, h]

theorem findallLeafGo_skip_nonlt {o' cl : Str} {dA : Bool} :
    ∀ {u : Str} (b : Str) (f : Nat), '<' ∉ u →
      findallLeafGo ('<' :: o') cl dA (u.length + f) (u ++ b) = findallLeafGo ('<' :: o') cl dA f b
  | [], b, f, _ => by simp
  | c0 :: u', b, f, h => by
    have hc : ¬ (c0 = '<') := fun hh => h (hh ▸ List.mem_cons_self _ _)
    have hfail : tryLeafAt ('<' :: o') cl dA (c0 :: (u' ++ b)) = none := by
      refine tryLeafAt_none_of_not_startsWith ?_
      simp [strStartsWith, hc]
    have hlen : (c0 :: u').length + f = (u'.length + f) + 1 := by
      simp [List.length_cons]
      omega
    rw [hlen, List.cons_append, findallLeafGo_skip1 _ hfail]
    exact findallLeafGo_skip_nonlt b f (fun hh => h (List.mem_cons_of_mem _ hh))

theorem findallLeafGo_nil {o cl : Str} {dA : Bool} : ∀ f, findallLeafGo o cl dA f [] = [] := by
  intro f
  cases f <;> rfl

theorem strStartsWith_nil (h : Str) : strStartsWith h [] = true := by
  cases h <;> rfl

theorem strStartsWith_append_self (p t : Str) : strStartsWith (p ++ t) p = true := by
  induction p with
  | nil => exact strStartsWith_nil t
  | cons c p' ih => simp [strStartsWith, ih]

theorem tryLeafAt_command {c : Str} (hc : '<' ∉ c) (rest : Str) :
    tryLeafAt (str "<trait:command") (str "</trait:command>") true
      (str "<trait:command>" ++ (c ++ (str "</trait:command>" ++ rest))) = some (c, rest) := by
  have h1 : strStartsWith (str "<trait:command>" ++ (c ++ (str "</trait:command>" ++ rest)))
      (str "<trait:command") = true := rfl
  have h4 : findSub (str "</trait:command>") (c ++ (str "</trait:command>" ++ rest))
      = some (c.length) := by
    rw [show (str "</trait:command>") = '<' :: str "/trait:command>" from rfl]
    rw [findSub_append_of_head_notMem _ hc]
    rw [findSub_of_startsWith (strStartsWith_append_self ('<' :: str "/trait:command>") rest)]
    simp
  have h5 : (c ++ (str "</trait:command>" ++ rest)).take c.length = c := by
    rw [show (c ++ (str "</trait:command>" ++ rest)).take c.length
        = (c ++ (str "</trait:command>" ++ rest)).take (c.length + 0) from rfl]
    rw [List.take_append]
    simp
  have h6 : (c ++ (str "</trait:command>" ++ rest)).drop (c.length + (str "</trait:command>").length)
      = rest := by
    rw [List.drop_append]
    rw [show (str "</trait:command>" ++ rest).drop (str "</trait:command>").length
        = rest from List.drop_left _ _]
  simp only [tryLeafAt, h1, if_true]
  rw [show List.drop
        (List.takeWhile (fun ch => decide (ch ≠ '>'))
            (List.drop (List.length (str "<trait:command"))
              (str "<trait:command>" ++ (c ++ (str "</trait:command>" ++ rest))))).length
        (List.drop (List.length (str "<trait:command"))
          (str "<trait:command>" ++ (c ++ (str "</trait:command>" ++ rest))))
      = '>' :: (c ++ (str "</trait:command>" ++ rest)) from rfl]
  simp [h4, h5, h6]

theorem findallLeafGo_step' {o cl : Str} {dA : Bool} {s inner remaining : Str} (f : Nat)
    (hs : s ≠ []) (h : tryLeafAt o cl dA s = some (inner, remaining)) :
    findallLeafGo o cl dA (f + 1) s = inner :: findallLeafGo o cl dA f remaining := by
  cases s with
  | nil => exact absurd rfl hs
  | cons c0 rest => exact findallLeafGo_step f h

theorem tryLeafAt_command_cons {c : Str} (hc : '<' ∉ c) (rest : Str) :
    tryLeafAt ('<' :: str "trait:command") (str "</trait:command>") true
      (str "<trait:command>" ++ (c ++ (str "</trait:command>" ++ rest))) = some (c, rest) :=
  tryLeafAt_command hc rest

theorem findallCmd_out_cmd (t o c : Str) (ht : '<' ∉ t) (ho : '<' ∉ o) (hc : '<' ∉ c) :
    findallLeaf (str "<trait:command") (str "</trait:command>") true (outSrc t o ++ cmdSrc c) = [c] := by
  have hA : (str "trait:output type=\"").length = 19 := rfl
  have hB : (str "\">").length = 2 := rfl
  have hC : (str "/trait:output>").length = 14 := rfl
  unfold findallLeaf
  rw [show outSrc t o ++ cmdSrc c
      = str "<trait:output type=\"" ++ (t ++ (str "\">" ++ (o ++ (str "</trait:output>" ++ cmdSrc c))))
      from by unfold outSrc; simp [List.append_assoc]]
  rw [show str "<trait:command" = '<' :: str "trait:command" from rfl]
  have hL : (str "<trait:output type=\"" ++ (t ++ (str "\">" ++ (o ++ (str "</trait:output>" ++ cmdSrc c))))).length + 1
      = t.length + (o.length + (c.length + 69)) := by
    unfold cmdSrc
    simp only [List.length_append, List.length_cons,
      show (str "<trait:output type=\"").length = 20 from rfl,
      show (str "\">").length = 2 from rfl,
      show (str "</trait:output>").length = 15 from rfl,
      show (str "<trait:command>").length = 15 from rfl,
      show (str "</trait:command>").length = 16 from rfl]
    omega
  rw [hL]
  -- skip the opening '<' of the output child
  rw [show str "<trait:output type=\"" ++ (t ++ (str "\">" ++ (o ++ (str "</trait:output>" ++ cmdSrc c))))
      = '<' :: (str "trait:output type=\"" ++ (t ++ (str "\">" ++ (o ++ (str "</trait:output>" ++ cmdSrc c)))))
      from rfl]
  rw [show t.length + (o.length + (c.length + 69)) = (t.length + (o.length + (c.length + 68))) + 1 from by omega]
  rw [findallLeafGo_skip1 _ (tryLeafAt_none_of_not_startsWith (show strStartsWith
      ('<' :: (str "trait:output type=\"" ++ (t ++ (str "\">" ++ (o ++ (str "</trait:output>" ++ cmdSrc c))))))
      ('<' :: str "trait:command") = false from rfl))]
  -- skip the rest of the literal `trait:output type="`
  rw [show t.length + (o.length + (c.length + 68))
      = (str "trait:output type=\"").length + (t.length + (o.length + (c.length + 49))) from by
    rw [hA]; omega]
  rw [findallLeafGo_skip_nonlt _ _ (by decide)]
  -- skip the type value t
  rw [show t.length + (o.length + (c.length + 49)) = t.length + (o.length + (c.length + 49)) from rfl]
  rw [findallLeafGo_skip_nonlt _ _ ht]
  -- skip `">`
  rw [show o.length + (c.length + 49) = (str "\">").length + (o.length + (c.length + 47)) from by
    rw [hB]; omega]
  rw [findallLeafGo_skip_nonlt _ _ (by decide)]
  -- skip the output text o
  rw [findallLeafGo_skip_nonlt _ _ ho]
  -- skip the opening '<' of `</trait:output>`
  rw [show str "</trait:output>" ++ cmdSrc c = '<' :: (str "/trait:output>" ++ cmdSrc c) from rfl]
  rw [show c.length + 47 = (c.length + 46) + 1 from by omega]
  rw [findallLeafGo_skip1 _ (tryLeafAt_none_of_not_startsWith (show strStartsWith
      ('<' :: (str "/trait:output>" ++ cmdSrc c)) ('<' :: str "trait:command") = false from rfl))]
  -- skip the rest of `</trait:output>`
  rw [show c.length + 46 = (str "/trait:output>").length + (c.length + 32) from by rw [hC]; omega]
  rw [findallLeafGo_skip_nonlt _ _ (by decide)]
  -- match the command child
  rw [show cmdSrc c = str "<trait:command>" ++ (c ++ (str "</trait:command>" ++ [])) from by
    unfold cmdSrc; simp [List.append_assoc]]
  rw [show c.length + 32 = (c.length + 31) + 1 from by omega]
  rw [findallLeafGo_step' _ (by simp [str]) (tryLeafAt_command_cons hc [])]
  rw [findallLeafGo_nil]

theorem tryAttrLeafAt_none_of_not_startsWith {o m cl : Str} {s : Str}
    (h : strStartsWith s o = false) : tryAttrLeafAt o m cl s = none := by
  unfold tryAttrLeafAt
  rw [h]
  simp

theorem findallAttrLeafGo_step' {o m cl : Str} {s : Str} {pr : Str × Str} {remaining : Str} (f : Nat)
    (hs : s ≠ []) (h : tryAttrLeafAt o m cl s = some (pr, remaining)) :
    findallAttrLeafGo o m cl (f + 1) s = pr :: findallAttrLeafGo o m cl f remaining := by
  cases s with
  | nil => exact absurd rfl hs
  | cons c0 rest =>
    rw [show findallAttrLeafGo o m cl (f + 1) (c0 :: rest) =
        (match tryAttrLeafAt o m cl (c0 :: rest) with
         | some (p, r) => p :: findallAttrLeafGo o m cl f r
         | none => findallAttrLeafGo o m cl f rest) from rfl, h]

theorem findallAttrLeafGo_skip1 {o m cl : Str} {c0 : Char} {rest : Str} (f : Nat)
    (h : tryAttrLeafAt o m cl (c0 :: rest) = none) :
    findallAttrLeafGo o m cl (f + 1) (c0 :: rest) = findallAttrLeafGo o m cl f rest := by
  rw [show findallAttrLeafGo o m cl (f + 1) (c0 :: rest) =
      (match tryAttrLeafAt o m cl (c0 :: rest) with
       | some (p, r) => p :: findallAttrLeafGo o m cl f r
       | none => findallAttrLeafGo o m cl f rest) from rfl, h]

theorem findallAttrLeafGo_skip_nonlt {o' m cl : Str} :
    ∀ {u : Str} (b : Str) (f : Nat), '<' ∉ u →
      findallAttrLeafGo ('<' :: o') m cl (u.length + f) (u ++ b) = findallAttrLeafGo ('<' :: o') m cl f b
  | [], b, f, _ => by simp
  | c0 :: u', b, f, h => by
    have hc : ¬ (c0 = '<') := fun hh => h (hh ▸ List.mem_cons_self _ _)
    have hfail : tryAttrLeafAt ('<' :: o') m cl (c0 :: (u' ++ b)) = none := by
      refine tryAttrLeafAt_none_of_not_startsWith ?_
      simp [strStartsWith, hc]
    have hlen : (c0 :: u').length + f = (u'.length + f) + 1 := by
      simp [List.length_cons]
      omega
    rw [hlen, List.cons_append, findallAttrLeafGo_skip1 _ hfail]
    exact findallAttrLeafGo_skip_nonlt b f (fun hh => h (List.mem_cons_of_mem _ hh))

theorem findallAttrLeafGo_nil {o m cl : Str} : ∀ f, findallAttrLeafGo o m cl f [] = [] := by
  intro f
  cases f <;> rfl

theorem tryAttrLeafAt_output {t o : Str} (ht : '"' ∉ t) (ho : '<' ∉ o) (rest : Str) :
    tryAttrLeafAt (str "<trait:output") (str "type=\"") (str "</trait:output>")
      (str "<trait:output type=\"" ++ (t ++ (str "\">" ++ (o ++ (str "</trait:output>" ++ rest)))))
      = some ((t, o), rest) := by
  have h1 : strStartsWith (str "<trait:output type=\"" ++ (t ++ (str "\">" ++ (o ++ (str "</trait:output>" ++ rest)))))
      (str "<trait:output") = true := rfl
  have h2 : List.drop (List.length (str "<trait:output"))
      (str "<trait:output type=\"" ++ (t ++ (str "\">" ++ (o ++ (str "</trait:output>" ++ rest)))))
      = str " type=\"" ++ (t ++ (str "\">" ++ (o ++ (str "</trait:output>" ++ rest)))) := rfl
  have h3 : List.takeWhile pySpace
      (str " type=\"" ++ (t ++ (str "\">" ++ (o ++ (str "</trait:output>" ++ rest))))) = [' '] := rfl
  have h4 : List.drop (List.length ([' '] : Str))
      (str " type=\"" ++ (t ++ (str "\">" ++ (o ++ (str "</trait:output>" ++ rest)))))
      = str "type=\"" ++ (t ++ (str "\">" ++ (o ++ (str "</trait:output>" ++ rest)))) := rfl
  have h5 : strStartsWith (str "type=\"" ++ (t ++ (str "\">" ++ (o ++ (str "</trait:output>" ++ rest)))))
      (str "type=\"") = true :=
    strStartsWith_append_self (str "type=\"") _
  have h5b : List.drop (List.length (str "type=\""))
      (str "type=\"" ++ (t ++ (str "\">" ++ (o ++ (str "</trait:output>" ++ rest)))))
      = t ++ (str "\">" ++ (o ++ (str "</trait:output>" ++ rest))) := rfl
  have hz : t ++ (str "\">" ++ (o ++ (str "</trait:output>" ++ rest)))
      = t ++ ('"' :: ('>' :: (o ++ (str "</trait:output>" ++ rest)))) := rfl
  have h6 : List.takeWhile (fun ch => decide (ch ≠ '"'))
      (t ++ (str "\">" ++ (o ++ (str "</trait:output>" ++ rest)))) = t := by
    rw [hz]
    refine takeWhile_append_stop _ (fun ch hcm => ?_) (by decide)
    simp [show ch ≠ '"' from fun hh => ht (hh ▸ hcm)]
  have h7 : List.drop t.length (t ++ (str "\">" ++ (o ++ (str "</trait:output>" ++ rest))))
      = '"' :: ('>' :: (o ++ (str "</trait:output>" ++ rest))) := by
    rw [hz]
    exact List.drop_left _ _
  have h8 : List.takeWhile (fun ch => decide (ch ≠ '>'))
      ('>' :: (o ++ (str "</trait:output>" ++ rest))) = [] := rfl
  have h9 : findSub (str "</trait:output>") (o ++ (str "</trait:output>" ++ rest))
      = some o.length := by
    rw [show (str "</trait:output>") = '<' :: str "/trait:output>" from rfl]
    rw [findSub_append_of_head_notMem _ ho]
    rw [findSub_of_startsWith (strStartsWith_append_self ('<' :: str "/trait:output>") rest)]
    simp
  have h10 : (o ++ (str "</trait:output>" ++ rest)).take o.length = o := by
    rw [show (o ++ (str "</trait:output>" ++ rest)).take o.length
        = (o ++ (str "</trait:output>" ++ rest)).take (o.length + 0) from rfl]
    rw [List.take_append]
    simp
  have h11 : (o ++ (str "</trait:output>" ++ rest)).drop (o.length + (str "</trait:output>").length)
      = rest := by
    rw [List.drop_append]
    exact List.drop_left _ _
  simp only [tryAttrLeafAt, h1, if_true, h2, h3, h4, h5, h5b, h6, h7, h8]
  simp only [List.length_nil, List.drop_zero, h9, h10, h11]
  simp

theorem findallOut_out_cmd (t o c : Str) (ht : '"' ∉ t) (ho : '<' ∉ o) (hc : '<' ∉ c) :
    findallAttrLeaf (str "<trait:output") (str "type=\"") (str "</trait:output>")
      (outSrc t o ++ cmdSrc c) = [(t, o)] := by
  have hT : (str "trait:command>").length = 14 := rfl
  have hS : (str "/trait:command>").length = 15 := rfl
  unfold findallAttrLeaf
  rw [show outSrc t o ++ cmdSrc c
      = str "<trait:output type=\"" ++ (t ++ (str "\">" ++ (o ++ (str "</trait:output>" ++ cmdSrc c))))
      from by unfold outSrc; simp [List.append_assoc]]
  have hL : (str "<trait:output type=\"" ++ (t ++ (str "\">" ++ (o ++ (str "</trait:output>" ++ cmdSrc c))))).length + 1
      = (t.length + (o.length + (c.length + 68))) + 1 := by
    unfold cmdSrc
    simp only [List.length_append, List.length_cons,
      show (str "<trait:output type=\"").length = 20 from rfl,
      show (str "\">").length = 2 from rfl,
      show (str "</trait:output>").length = 15 from rfl,
      show (str "<trait:command>").length = 15 from rfl,
      show (str "</trait:command>").length = 16 from rfl]
    omega
  rw [hL]
  rw [findallAttrLeafGo_step' _ (by simp [str]) (tryAttrLeafAt_output ht ho (cmdSrc c))]
  rw [show str "<trait:output" = '<' :: str "trait:output" from rfl]
  rw [show cmdSrc c = str "<trait:command>" ++ (c ++ (str "</trait:command>" ++ [])) from by
    unfold cmdSrc; simp [List.append_assoc]]
  rw [show str "<trait:command>" ++ (c ++ (str "</trait:command>" ++ []))
      = '<' :: (str "trait:command>" ++ (c ++ (str "</trait:command>" ++ []))) from rfl]
  rw [show t.length + (o.length + (c.length + 68)) = (t.length + (o.length + (c.length + 67))) + 1 from by
    omega]
  rw [findallAttrLeafGo_skip1 _ (tryAttrLeafAt_none_of_not_startsWith (show strStartsWith
      ('<' :: (str "trait:command>" ++ (c ++ (str "</trait:command>" ++ []))))
      ('<' :: str "trait:output") = false from rfl))]
  rw [show t.length + (o.length + (c.length + 67))
      = (str "trait:command>").length + (t.length + (o.length + (c.length + 53))) from by
    rw [hT]; omega]
  rw [findallAttrLeafGo_skip_nonlt _ _ (by decide)]
  rw [show t.length + (o.length + (c.length + 53)) = c.length + (t.length + (o.length + 53)) from by omega]
  rw [findallAttrLeafGo_skip_nonlt _ _ hc]
  rw [show str "</trait:command>" ++ [] = '<' :: (str "/trait:command>" ++ []) from rfl]
  rw [show t.length + (o.length + 53) = (t.length + (o.length + 52)) + 1 from by omega]
  rw [findallAttrLeafGo_skip1 _ (tryAttrLeafAt_none_of_not_startsWith (show strStartsWith
      ('<' :: (str "/trait:command>" ++ [])) ('<' :: str "trait:output") = false from rfl))]
  rw [show t.length + (o.length + 52)
      = (str "/trait:command>").length + (t.length + (o.length + 37)) from by rw [hS]; omega]
  rw [findallAttrLeafGo_skip_nonlt _ _ (by decide)]
  rw [findallAttrLeafGo_nil]

/-- C6 (amended): `render_terminal` regroups a terminal's children by
kind.  For inner markup consisting of an `output` child FOLLOWED by a
`command` child (payloads free of the delimiter characters), the fragment
renders the command line FIRST and the output line after it — the two
`re.findall` passes collect each kind separately and `cmd_html` is
concatenated before `out_html`, so the source interleaving is not
preserved (see the counterexample), though document order within each kind
is. -/
theorem render_terminal_groups_commands_first (attrs : List (Str × Str)) (t o c : Str)
    (ht1 : '<' ∉ t) (ht2 : '"' ∉ t) (ho : '<' ∉ o) (hc : '<' ∉ c) :
    render_terminal attrs (outSrc t o ++ cmdSrc c) =
      termShell (dictGetD attrs (str "title") (str "Terminal")) (cmdLine c ++ outLine t o) := by
  unfold render_terminal
  rw [findallCmd_out_cmd t o c ht1 ho hc, findallOut_out_cmd t o c ht2 ho hc]
  unfold termShell cmdLine outLine joinAll
  simp [List.append_assoc]

/-- Witness for `render_terminal_groups_commands_first`. -/
theorem render_terminal_groups_commands_first_witness :
    render_terminal [] (outSrc (str "stdout") (str "A") ++ cmdSrc (str "ls")) =
      termShell (dictGetD [] (str "title") (str "Terminal"))
        (cmdLine (str "ls") ++ outLine (str "stdout") (str "A")) :=
  render_terminal_groups_commands_first [] (str "stdout") (str "A") (str "ls")
    (by decide) (by decide) (by decide) (by decide)

/-! ## Table header and body rows (C7, amended) -/

theorem strStartsWith_of_append : ∀ {h x : Str} (y : Str),
    strStartsWith h (x ++ y) = true → strStartsWith h x = true
  | h, [], y, _ => strStartsWith_nil h
  | [], x0 :: x', y, hp => by simp [strStartsWith] at hp
  | h0 :: h', x0 :: x', y, hp => by
    simp only [List.cons_append, strStartsWith, Bool.and_eq_true, decide_eq_true_eq] at hp ⊢
    exact ⟨hp.1, strStartsWith_of_append y hp.2⟩

theorem noStartIn_append {n : Str} : ∀ {a : Str} (b : Str),
    noStartIn n a = true → noStartIn n b = true → noStartIn n (a ++ b) = true
  | [], b, _, hb => hb
  | c0 :: a', b, ha, hb => by
    simp only [noStartIn, Bool.and_eq_true, Bool.not_eq_true', Bool.or_eq_false_iff] at ha
    have h1 : strStartsWith ((c0 :: a') ++ b) n = false := by
      cases hv : strStartsWith ((c0 :: a') ++ b) n
      · rfl
      · have := strStartsWith_append_mutual (c0 :: a') b n hv
        rw [ha.1.1, ha.1.2] at this
        simp at this
    have h2 : strStartsWith n ((c0 :: a') ++ b) = false := by
      cases hv : strStartsWith n ((c0 :: a') ++ b)
      · rfl
      · rw [strStartsWith_of_append b hv] at ha
        simp at ha
    have hrec := noStartIn_append b ha.2 hb
    simp only [List.cons_append, noStartIn, Bool.and_eq_true, Bool.not_eq_true',
      Bool.or_eq_false_iff]
    rw [List.cons_append] at h1 h2
    exact ⟨⟨h1, h2⟩, hrec⟩

theorem tryHdrRowAt_none_of_not_startsWith {s : Str}
    (h : strStartsWith s (str "<trait:row") = false) : tryHdrRowAt s = none := by
  unfold tryHdrRowAt
  rw [h]
  simp

theorem findallHdrGo_step' {s inner remaining : Str} (f : Nat)
    (hs : s ≠ []) (h : tryHdrRowAt s = some (inner, remaining)) :
    findallHdrGo (f + 1) s = inner :: findallHdrGo f remaining := by
  cases s with
  | nil => exact absurd rfl hs
  | cons c0 rest =>
    rw [show findallHdrGo (f + 1) (c0 :: rest) =
        (match tryHdrRowAt (c0 :: rest) with
         | some (p, r) => p :: findallHdrGo f r
         | none => findallHdrGo f rest) from rfl, h]

theorem findallHdrGo_skip1 {c0 : Char} {rest : Str} (f : Nat)
    (h : tryHdrRowAt (c0 :: rest) = none) :
    findallHdrGo (f + 1) (c0 :: rest) = findallHdrGo f rest := by
  rw [show findallHdrGo (f + 1) (c0 :: rest) =
      (match tryHdrRowAt (c0 :: rest) with
       | some (p, r) => p :: findallHdrGo f r
       | none => findallHdrGo f rest) from rfl, h]

theorem findallHdrGo_nil : ∀ f, findallHdrGo f [] = [] := by
  intro f
  cases f <;> rfl

theorem findallHdrGo_skip_noStart : ∀ {a : Str} (b : Str) (f : Nat),
    noStartIn (str "<trait:row") a = true →
    findallHdrGo (a.length + f) (a ++ b) = findallHdrGo f b
  | [], b, f, _ => by simp
  | c0 :: a', b, f, h => by
    simp only [noStartIn, Bool.and_eq_true, Bool.not_eq_true', Bool.or_eq_false_iff] at h
    have hns : strStartsWith ((c0 :: a') ++ b) (str "<trait:row") = false := by
      cases hv : strStartsWith ((c0 :: a') ++ b) (str "<trait:row")
      · rfl
      · have := strStartsWith_append_mutual (c0 :: a') b _ hv
        rw [h.1.1, h.1.2] at this
        simp at this
    have hlen : (c0 :: a').length + f = (a'.length + f) + 1 := by
      simp [List.length_cons]
      omega
    rw [List.cons_append] at hns
    rw [hlen, List.cons_append, findallHdrGo_skip1 _ (tryHdrRowAt_none_of_not_startsWith hns)]
    exact findallHdrGo_skip_noStart b f h.2

theorem tryHdrRowAt_data (t : Str) : tryHdrRowAt (str "<trait:row>" ++ t) = none := by
  have h1 : strStartsWith (str "<trait:row>" ++ t) (str "<trait:row") = true := rfl
  simp only [tryHdrRowAt, h1, if_true]
  rw [show (str "<trait:row>" ++ t).drop (str "<trait:row").length = '>' :: t from rfl]
  simp [List.takeWhile_cons, pySpace]

theorem tryHdrRowAt_hdr {r : Str} (hr : noStartIn (str "</trait:row>") r = true) (rest : Str) :
    tryHdrRowAt (rowSrcHs r ++ rest) = some (r, rest) := by
  rw [show rowSrcHs r ++ rest
      = str "<trait:row header=\"true\">" ++ (r ++ (str "</trait:row>" ++ rest)) from by
    unfold rowSrcHs; simp [List.append_assoc]]
  have h1 : strStartsWith (str "<trait:row header=\"true\">" ++ (r ++ (str "</trait:row>" ++ rest)))
      (str "<trait:row") = true := rfl
  have h4 : findSub (str "</trait:row>") (r ++ (str "</trait:row>" ++ rest))
      = some r.length := by
    rw [findSub_append_of_noStartIn _ hr]
    rw [findSub_of_startsWith (strStartsWith_append_self (str "</trait:row>") rest)]
    simp
  have h5 : (r ++ (str "</trait:row>" ++ rest)).take r.length = r := by
    rw [show (r ++ (str "</trait:row>" ++ rest)).take r.length
        = (r ++ (str "</trait:row>" ++ rest)).take (r.length + 0) from rfl]
    rw [List.take_append]
    simp
  have h6 : (r ++ (str "</trait:row>" ++ rest)).drop (r.length + (str "</trait:row>").length)
      = rest := by
    rw [List.drop_append]
    rw [show (str "</trait:row>" ++ rest).drop (str "</trait:row>").length
        = rest from List.drop_left _ _]
  simp only [tryHdrRowAt, h1, if_true]
  rw [show (str "<trait:row header=\"true\">" ++ (r ++ (str "</trait:row>" ++ rest))).drop
        (str "<trait:row").length
      = ' ' :: (str "header=\"true\"" ++ ('>' :: (r ++ (str "</trait:row>" ++ rest)))) from rfl]
  rw [show List.takeWhile pySpace
        (' ' :: (str "header=\"true\"" ++ ('>' :: (r ++ (str "</trait:row>" ++ rest)))))
      = [' '] from by simp [List.takeWhile_cons, pySpace, str]]
  simp only [List.length_cons, List.length_nil]
  rw [show (' ' :: (str "header=\"true\"" ++ ('>' :: (r ++ (str "</trait:row>" ++ rest))))).drop (0 + 1)
      = str "header=\"true\"" ++ ('>' :: (r ++ (str "</trait:row>" ++ rest))) from rfl]
  have h2 : strStartsWith (str "header=\"true\"" ++ ('>' :: (r ++ (str "</trait:row>" ++ rest))))
      (str "header=\"true\"") = true := rfl
  simp only [h2, if_true]
  rw [show List.drop
        (List.takeWhile (fun c => decide (c ≠ '>'))
          ((str "header=\"true\"" ++ ('>' :: (r ++ (str "</trait:row>" ++ rest)))).drop
            (str "header=\"true\"").length)).length
        ((str "header=\"true\"" ++ ('>' :: (r ++ (str "</trait:row>" ++ rest)))).drop
          (str "header=\"true\"").length)
      = '>' :: (r ++ (str "</trait:row>" ++ rest)) from rfl]
  simp [h4, h5, h6]

theorem tryLeafAt_rowH {r : Str} (hr : noStartIn (str "</trait:row>") r = true) (rest : Str) :
    tryLeafAt (str "<trait:row") (str "</trait:row>") true (rowSrcHs r ++ rest) = some (r, rest) := by
  rw [show rowSrcHs r ++ rest
      = str "<trait:row header=\"true\">" ++ (r ++ (str "</trait:row>" ++ rest)) from by
    unfold rowSrcHs; simp [List.append_assoc]]
  have h1 : strStartsWith (str "<trait:row header=\"true\">" ++ (r ++ (str "</trait:row>" ++ rest)))
      (str "<trait:row") = true := rfl
  have h4 : findSub (str "</trait:row>") (r ++ (str "</trait:row>" ++ rest))
      = some r.length := by
    rw [findSub_append_of_noStartIn _ hr]
    rw [findSub_of_startsWith (strStartsWith_append_self (str "</trait:row>") rest)]
    simp
  have h5 : (r ++ (str "</trait:row>" ++ rest)).take r.length = r := by
    rw [show (r ++ (str "</trait:row>" ++ rest)).take r.length
        = (r ++ (str "</trait:row>" ++ rest)).take (r.length + 0) from rfl]
    rw [List.take_append]
    simp
  have h6 : (r ++ (str "</trait:row>" ++ rest)).drop (r.length + (str "</trait:row>").length)
      = rest := by
    rw [List.drop_append]
    rw [show (str "</trait:row>" ++ rest).drop (str "</trait:row>").length
        = rest from List.drop_left _ _]
  simp only [tryLeafAt, h1, if_true]
  rw [show List.drop
        (List.takeWhile (fun ch => decide (ch ≠ '>'))
            (List.drop (List.length (str "<trait:row"))
              (str "<trait:row header=\"true\">" ++ (r ++ (str "</trait:row>" ++ rest))))).length
        (List.drop (List.length (str "<trait:row"))
          (str "<trait:row header=\"true\">" ++ (r ++ (str "</trait:row>" ++ rest))))
      = '>' :: (r ++ (str "</trait:row>" ++ rest)) from rfl]
  simp [h4, h5, h6]

theorem tryLeafAt_rowD {r : Str} (hr : noStartIn (str "</trait:row>") r = true) (rest : Str) :
    tryLeafAt (str "<trait:row") (str "</trait:row>") true (rowSrcDs r ++ rest) = some (r, rest) := by
  rw [show rowSrcDs r ++ rest
      = str "<trait:row>" ++ (r ++ (str "</trait:row>" ++ rest)) from by
    unfold rowSrcDs; simp [List.append_assoc]]
  have h1 : strStartsWith (str "<trait:row>" ++ (r ++ (str "</trait:row>" ++ rest)))
      (str "<trait:row") = true := rfl
  have h4 : findSub (str "</trait:row>") (r ++ (str "</trait:row>" ++ rest))
      = some r.length := by
    rw [findSub_append_of_noStartIn _ hr]
    rw [findSub_of_startsWith (strStartsWith_append_self (str "</trait:row>") rest)]
    simp
  have h5 : (r ++ (str "</trait:row>" ++ rest)).take r.length = r := by
    rw [show (r ++ (str "</trait:row>" ++ rest)).take r.length
        = (r ++ (str "</trait:row>" ++ rest)).take (r.length + 0) from rfl]
    rw [List.take_append]
    simp
  have h6 : (r ++ (str "</trait:row>" ++ rest)).drop (r.length + (str "</trait:row>").length)
      = rest := by
    rw [List.drop_append]
    rw [show (str "</trait:row>" ++ rest).drop (str "</trait:row>").length
        = rest from List.drop_left _ _]
  simp only [tryLeafAt, h1, if_true]
  rw [show List.drop
        (List.takeWhile (fun ch => decide (ch ≠ '>'))
            (List.drop (List.length (str "<trait:row"))
              (str "<trait:row>" ++ (r ++ (str "</trait:row>" ++ rest))))).length
        (List.drop (List.length (str "<trait:row"))
          (str "<trait:row>" ++ (r ++ (str "</trait:row>" ++ rest))))
      = '>' :: (r ++ (str "</trait:row>" ++ rest)) from rfl]
  simp [h4, h5, h6]

theorem tryHdrRowAt_data_cons (t : Str) :
    tryHdrRowAt ('<' :: (str "trait:row>" ++ t)) = none := tryHdrRowAt_data t

theorem findallRows_hdr_data_data (rH rA rB : Str)
    (hH : noStartIn (str "</trait:row>") rH = true)
    (hA : noStartIn (str "</trait:row>") rA = true)
    (hB : noStartIn (str "</trait:row>") rB = true) :
    findallLeaf (str "<trait:row") (str "</trait:row>") true
      (rowSrcHs rH ++ (rowSrcDs rA ++ rowSrcDs rB)) = [rH, rA, rB] := by
  unfold findallLeaf
  have hL : (rowSrcHs rH ++ (rowSrcDs rA ++ rowSrcDs rB)).length + 1
      = rH.length + (rA.length + (rB.length + 84)) := by
    unfold rowSrcHs rowSrcDs
    simp only [List.length_append,
      show (str "<trait:row header=\"true\">").length = 25 from rfl,
      show (str "<trait:row>").length = 11 from rfl,
      show (str "</trait:row>").length = 12 from rfl]
    omega
  rw [hL]
  rw [show rH.length + (rA.length + (rB.length + 84))
      = (rH.length + (rA.length + (rB.length + 83))) + 1 from by omega]
  rw [findallLeafGo_step' _ (by simp [rowSrcHs, str]) (tryLeafAt_rowH hH (rowSrcDs rA ++ rowSrcDs rB))]
  rw [show rH.length + (rA.length + (rB.length + 83))
      = (rH.length + (rA.length + (rB.length + 82))) + 1 from by omega]
  rw [findallLeafGo_step' _ (by simp [rowSrcDs, str]) (tryLeafAt_rowD hA (rowSrcDs rB))]
  rw [show rH.length + (rA.length + (rB.length + 82))
      = (rH.length + (rA.length + (rB.length + 81))) + 1 from by omega]
  rw [show rowSrcDs rB = rowSrcDs rB ++ [] from by simp]
  rw [findallLeafGo_step' _ (by simp [rowSrcDs, str]) (tryLeafAt_rowD hB [])]
  rw [findallLeafGo_nil]

theorem findallHdr_hdr_data_data (rH rA rB : Str)
    (hH : noStartIn (str "</trait:row>") rH = true)
    (hA2 : noStartIn (str "<trait:row") rA = true)
    (hB2 : noStartIn (str "<trait:row") rB = true) :
    findallHdr (rowSrcHs rH ++ (rowSrcDs rA ++ rowSrcDs rB)) = [rH] := by
  unfold findallHdr
  have hL : (rowSrcHs rH ++ (rowSrcDs rA ++ rowSrcDs rB)).length + 1
      = rH.length + (rA.length + (rB.length + 84)) := by
    unfold rowSrcHs rowSrcDs
    simp only [List.length_append,
      show (str "<trait:row header=\"true\">").length = 25 from rfl,
      show (str "<trait:row>").length = 11 from rfl,
      show (str "</trait:row>").length = 12 from rfl]
    omega
  rw [hL]
  rw [show rH.length + (rA.length + (rB.length + 84))
      = (rH.length + (rA.length + (rB.length + 83))) + 1 from by omega]
  rw [findallHdrGo_step' _ (by simp [rowSrcHs, str]) (tryHdrRowAt_hdr hH (rowSrcDs rA ++ rowSrcDs rB))]
  -- skip the '<' opening the first data row
  rw [show rowSrcDs rA ++ rowSrcDs rB
      = '<' :: (str "trait:row>" ++ (rA ++ (str "</trait:row>" ++ rowSrcDs rB))) from by
    unfold rowSrcDs; simp [List.append_assoc]; rfl]
  rw [show rH.length + (rA.length + (rB.length + 83))
      = (rH.length + (rA.length + (rB.length + 82))) + 1 from by omega]
  rw [findallHdrGo_skip1 _ (tryHdrRowAt_data_cons (rA ++ (str "</trait:row>" ++ rowSrcDs rB)))]
  -- skip the rest of the first data row
  rw [show str "trait:row>" ++ (rA ++ (str "</trait:row>" ++ rowSrcDs rB))
      = (str "trait:row>" ++ (rA ++ str "</trait:row>")) ++ rowSrcDs rB from by
    simp [List.append_assoc]]
  rw [show rH.length + (rA.length + (rB.length + 82))
      = (str "trait:row>" ++ (rA ++ str "</trait:row>")).length + (rH.length + (rB.length + 60)) from by
    simp only [List.length_append,
      show (str "trait:row>").length = 10 from rfl,
      show (str "</trait:row>").length = 12 from rfl]
    omega]
  rw [findallHdrGo_skip_noStart _ _ (noStartIn_append _ (by decide) (noStartIn_append _ hA2 (by decide)))]
  -- skip the '<' opening the second data row
  rw [show rowSrcDs rB = '<' :: (str "trait:row>" ++ (rB ++ str "</trait:row>")) from by
    unfold rowSrcDs; simp [List.append_assoc]; rfl]
  rw [show rH.length + (rB.length + 60) = (rH.length + (rB.length + 59)) + 1 from by omega]
  rw [findallHdrGo_skip1 _ (tryHdrRowAt_data_cons (rB ++ str "</trait:row>"))]
  -- skip the rest of the second data row
  rw [show str "trait:row>" ++ (rB ++ str "</trait:row>")
      = (str "trait:row>" ++ (rB ++ str "</trait:row>")) ++ [] from by simp]
  rw [show rH.length + (rB.length + 59)
      = (str "trait:row>" ++ (rB ++ str "</trait:row>")).length + (rH.length + 37) from by
    simp only [List.length_append,
      show (str "trait:row>").length = 10 from rfl,
      show (str "</trait:row>").length = 12 from rfl]
    omega]
  rw [findallHdrGo_skip_noStart _ _ (noStartIn_append _ (by decide) (noStartIn_append _ hB2 (by decide)))]
  rw [findallHdrGo_nil]

/-- C7 (amended): `render_table` renders the header-marked row as the
single header `<tr>` and every data row whose inner text DIFFERS from the
header row's as a body `<tr>`, in document order.  For content made of one
header-marked row and two data rows (inner texts free of row-tag
occurrences) whose inner texts differ from the header's, the output is
exactly the header row followed by both body rows; a data row textually
equal to the header row would instead be dropped by the
`row not in rows` filter (see the counterexample). -/
theorem render_table_header_and_distinct_rows (attrs : List (Str × Str)) (rH rA rB : Str)
    (hH : noStartIn (str "</trait:row>") rH = true)
    (hA : noStartIn (str "</trait:row>") rA = true)
    (hB : noStartIn (str "</trait:row>") rB = true)
    (hA2 : noStartIn (str "<trait:row") rA = true)
    (hB2 : noStartIn (str "<trait:row") rB = true)
    (hAne : rA ≠ rH) (hBne : rB ≠ rH) :
    render_table attrs (rowSrcHs rH ++ (rowSrcDs rA ++ rowSrcDs rB)) =
      tableShell (hdrTr rH ++ (bodyTr rA ++ bodyTr rB)) := by
  unfold render_table
  rw [findallHdr_hdr_data_data rH rA rB hH hA2 hB2,
      findallRows_hdr_data_data rH rA rB hH hA hB]
  unfold tableShell hdrTr bodyTr joinAll
  simp [List.filter, List.contains, hAne, hBne, List.append_assoc]

/-- Witness for `render_table_header_and_distinct_rows`. -/
theorem render_table_header_and_distinct_rows_witness :
    render_table [] (rowSrcHs (str "H") ++ (rowSrcDs (str "A") ++ rowSrcDs (str "B"))) =
      tableShell (hdrTr (str "H") ++ (bodyTr (str "A") ++ bodyTr (str "B"))) :=
  render_table_header_and_distinct_rows [] (str "H") (str "A") (str "B")
    (by decide) (by decide) (by decide) (by decide) (by decide)
    (by decide) (by decide)
